import Mathlib

/-!
Verification of the `icy_sixel` sixel stream encoder (`src/output/mod.rs`).

The encoder state and its operations are embedded shallowly: the Rust
`SixelOutput` struct becomes a Lean structure, `i32` quantities that are
provably nonnegative become `Nat` (with the `i32::MAX` bound kept explicit
wherever the source checks it), quantities that can be `-1` stay `Int`,
`Vec<u8>`/`String` become `List Nat`/`List Char`, and fallible code returns
`Except Failure`.  A Rust panic (out-of-bounds index) is modelled as
`Failure.panic`.

The accumulation buffer is modelled at the level of the emitted text: `putc`
and `puts` append to `buffer`, and the source's `advance` (which only moves
full packets from the buffer to the output sink without changing the emitted
text) is modelled as the identity on that text stream.  The packet layer
itself (`penetrate` and the packet-sized flushing of `advance`) is modelled
separately and faithfully below, including its out-of-range slice panic.
-/

namespace IcySixel

/-- Maximum value of a 32-bit signed integer, the overflow bound `i32::MAX`
used by the encoder's index arithmetic. -/
def i32Max : Nat := 2147483647

/-- Size of the palette tables in the high-color encoder. -/
def SIXEL_PALETTE_MAX : Nat := 256

/-- DCS introducer, 7-bit form: ESC `P`. -/
def DCS_START_7BIT : List Char := ['\x1B', 'P']

/-- DCS introducer, 8-bit form as written in the source: the single Unicode
scalar `U+0220` (the source literal is `"\u{220}"`). -/
def DCS_START_8BIT : List Char := [Char.ofNat 544]

/-- DCS terminator, 7-bit form: ESC `\`. -/
def DCS_END_7BIT : List Char := ['\x1B', '\\']

/-- DCS terminator, 8-bit form as written in the source: the single Unicode
scalar `U+0234` (the source literal is `"\u{234}"`). -/
def DCS_END_8BIT : List Char := [Char.ofNat 564]

/-- Packet size for multiplexer penetration, envelope included. -/
def SCREEN_PACKET_SIZE : Nat := 256

/-- Palette slot state: the slot's color was hit (reused) this pass. -/
def PALETTE_HIT : Int := 1

/-- Palette slot state: the slot was newly assigned this pass. -/
def PALETTE_CHANGE : Int := 2

/-- Flush threshold of the accumulation buffer (`SixelOutput::PACKET_SIZE`). -/
def PACKET_SIZE : Nat := 16384

/-- Modelled from the spec: the structured error taxonomy of spec section 7.
The crate's `SixelError` lives in `error.rs`, which is not part of the
visible source; only the three kinds named by the spec are needed here. -/
inductive SixelError
  | BadInput
  | BadArgument
  | BadIntegerOverflow
  deriving DecidableEq, Repr

/-- Outcome of a fallible operation: a structured `SixelError` result, a Rust
panic (out-of-bounds index), or - only for the high-color outer loop, which
the source does not bound - exhaustion of an explicit iteration budget. -/
inductive Failure
  | error (e : SixelError)
  | panic
  | fuelOut
  deriving DecidableEq, Repr

/-- Modelled from the spec: palette colorspace selection (RGB / HLS / auto);
the enum lives in the crate's `output/enums.rs`, not in the visible source. -/
inductive PaletteType
  | Auto
  | Hls
  | Rgb
  deriving DecidableEq, Repr

/-- Modelled from the spec: encode policy (favor size vs favor speed); the
enum lives in the crate's `output/enums.rs`, not in the visible source. -/
inductive EncodePolicy
  | Auto
  | Fast
  | Size
  deriving DecidableEq, Repr

/-- Modelled from the spec: pixel-format tags consumed by the encoder; the
enum lives in the crate's `output/enums.rs`.  The variants are exactly those
the visible source matches on, plus `RGB888` standing for the remaining
continuous-tone formats routed to `apply_palette`. -/
inductive PixelFormat
  | PAL1
  | PAL2
  | PAL4
  | PAL8
  | G1
  | G2
  | G4
  | G8
  | GA88
  | AG88
  | BGR888
  | RGB888
  deriving DecidableEq, Repr

/-- Modelled from the spec: quality modes of the dither configuration; the
five variants are exactly those matched by `SixelOutput::encode`. -/
inductive Quality
  | Auto
  | High
  | Low
  | Full
  | HighColor
  deriving DecidableEq, Repr

/-- Modelled from the spec: selector for the error-diffusion method applied
by the external `diffuse` collaborator (spec section 6); `None` applies no
diffusion. -/
inductive MethodForDiffuse
  | None
  | Atkinson
  | FS
  | JaJuNi
  | Stucki
  | Burkes
  deriving DecidableEq, Repr

/-- A sixel tile (the source's `SixelNode`): palette index, start and end
x-coordinates, and the bitplane map of the tile's color row. -/
structure SixelNode where
  pal : Int
  sx : Int
  mx : Int
  map : List Nat
  deriving DecidableEq, Repr, Inhabited

/-- The encoder output state (the source's `SixelOutput`).  The output sink
is not part of the state: `buffer` holds the emitted text stream (see the
file comment about `advance`). -/
structure SixelOutput where
  palette_type : PaletteType
  save_pixel : Nat
  save_count : Int
  active_palette : Int
  nodes : List SixelNode
  penetrate_multiplexer : Bool
  encode_policy : EncodePolicy
  buffer : List Char
  has_8bit_control : Bool
  has_sixel_scrolling : Bool
  has_gri_arg_limit : Bool
  has_sdm_glitch : Bool
  skip_dcs_envelope : Bool
  deriving DecidableEq, Repr

/-- The source's `SixelOutput::new`: default output context. -/
def SixelOutput.new : SixelOutput where
  palette_type := PaletteType.Auto
  save_pixel := 0
  save_count := 0
  active_palette := -1
  nodes := []
  penetrate_multiplexer := false
  encode_policy := EncodePolicy.Auto
  buffer := []
  has_8bit_control := false
  has_sixel_scrolling := false
  has_gri_arg_limit := true
  has_sdm_glitch := false
  skip_dcs_envelope := false

/-- The source's `putc`: append one character to the output text. -/
def putc (st : SixelOutput) (c : Char) : SixelOutput :=
  { st with buffer := st.buffer ++ [c] }

/-- The source's `puts`: append a string to the output text. -/
def puts (st : SixelOutput) (s : List Char) : SixelOutput :=
  { st with buffer := st.buffer ++ s }

/-- Decimal digit character for a value below ten. -/
def digitChar (n : Nat) : Char := Char.ofNat (48 + n)

/-- Decimal representation of a natural number, most significant digit
first; this is what Rust's `format!` produces for nonnegative integers. -/
def natDigits (n : Nat) : List Char :=
  if n < 10 then [digitChar n] else natDigits (n / 10) ++ [digitChar (n % 10)]
termination_by n
decreasing_by exact Nat.div_lt_self (by omega) (by omega)

/-- Decimal representation of an integer, as formatted by Rust. -/
def intChars (i : Int) : List Char :=
  if i < 0 then '-' :: natDigits i.natAbs else natDigits i.toNat

/-- The source's `puti`: append an integer, formatted in decimal. -/
def puti (st : SixelOutput) (i : Int) : SixelOutput :=
  puts st (intChars i)

/-- The 255-chunking loop at the top of `put_flash`: while the pending run
exceeds 255, emit a `!255` repeat directive plus the run's character and
shorten the run by 255 (the DECGRI argument is limited to 255 on real
VT terminals). -/
def putFlashLoop (st : SixelOutput) : SixelOutput :=
  if 255 < st.save_count then
    putFlashLoop
      { putc (puts st ['!', '2', '5', '5']) (Char.ofNat st.save_pixel) with
          save_count := st.save_count - 255 }
  else st
termination_by st.save_count.toNat
decreasing_by omega

/-- The source's `SixelOutput::put_flash`: flush the pending pixel run,
emitting a repeat directive for runs longer than three and literal characters
otherwise, then reset the run to empty. -/
def put_flash (st : SixelOutput) : SixelOutput :=
  let st := if st.has_gri_arg_limit then putFlashLoop st else st
  let st :=
    if 3 < st.save_count then
      putc (puti (putc st '!') st.save_count) (Char.ofNat st.save_pixel)
    else
      puts st (List.replicate st.save_count.toNat (Char.ofNat st.save_pixel))
  { st with save_pixel := 0, save_count := 0 }

/-- The source's `SixelOutput::put_pixel`: append one pixel code to the run,
flushing the previous run when the code changes.  Codes above 63 wrap to 0,
and the code is offset into the printable window starting at `?` (63). -/
def put_pixel (st : SixelOutput) (pix : Nat) : SixelOutput :=
  let pix := if 63 < pix then 0 else pix
  let pix := pix + 63
  if pix = st.save_pixel then { st with save_count := st.save_count + 1 }
  else
    let st := put_flash st
    { st with save_pixel := pix, save_count := 1 }

/-- Feed `n` copies of the pixel code `pix` through `put_pixel`. -/
def putPixelRun (st : SixelOutput) (pix : Nat) : Nat → SixelOutput
  | 0 => st
  | n + 1 => putPixelRun (put_pixel st pix) pix n

/-- One 255-sized chunk emitted by the `put_flash` splitting loop: the repeat
directive `!255` followed by the run's character. -/
def flashChunk (p : Nat) : List Char := ['!', '2', '5', '5', Char.ofNat p]

/-- Tail of a flushed run of length `n`: a repeat directive when `n > 3`,
literal repetition otherwise. -/
def flashTail (p n : Nat) : List Char :=
  if 3 < n then '!' :: (natDigits n ++ [Char.ofNat p])
  else List.replicate n (Char.ofNat p)

/-- Text emitted by `put_flash` for a pending run of length `n` of the saved
character `p`: with the repeat-argument limit, `(n-1)/255` full `!255` chunks
followed by the tail for the residue `(n-1) % 255 + 1`; without the limit,
just the tail for `n`. -/
def flashOut (limit : Bool) (p n : Nat) : List Char :=
  if limit then
    (List.replicate ((n - 1) / 255) (flashChunk p)).flatten ++
      flashTail p (if n = 0 then 0 else (n - 1) % 255 + 1)
  else flashTail p n

theorem putFlashLoop_spec (n : Nat) :
    ∀ st : SixelOutput, st.save_count = n → 1 ≤ n →
      putFlashLoop st =
        { st with
            buffer := st.buffer ++ (List.replicate ((n - 1) / 255) (flashChunk st.save_pixel)).flatten,
            save_count := ((n - 1) % 255 + 1 : Nat) } := by
  induction n using Nat.strong_induction_on with
  | _ n ih =>
    intro st hc hn
    rw [putFlashLoop]
    by_cases h : 255 < st.save_count
    · have hn' : 255 < n := by omega
      have hstep :
          ({ putc (puts st ['!', '2', '5', '5']) (Char.ofNat st.save_pixel) with
              save_count := st.save_count - 255 } : SixelOutput) =
            { st with
                buffer := st.buffer ++ flashChunk st.save_pixel,
                save_count := ((n - 255 : Nat) : Int) } := by
        simp [putc, puts, flashChunk, hc]
        omega
      rw [if_pos h, hstep, ih (n - 255) (by omega) _ rfl (by omega)]
      have h1 : (n - 255 - 1) / 255 + 1 = (n - 1) / 255 := by omega
      have h2 : (n - 255 - 1) % 255 = (n - 1) % 255 := by omega
      simp only [List.append_assoc]
      rw [h2, ← h1, List.replicate_succ, List.flatten_cons]
    · have hle : n ≤ 255 := by omega
      rw [if_neg h]
      have h1 : (n - 1) / 255 = 0 := by omega
      have h2 : (n - 1) % 255 + 1 = n := by omega
      simp [h1, h2, ← hc]

theorem put_flash_spec (st : SixelOutput) (n : Nat) (hc : st.save_count = n) :
    put_flash st =
      { st with
          buffer := st.buffer ++ flashOut st.has_gri_arg_limit st.save_pixel n,
          save_pixel := 0,
          save_count := 0 } := by
  rw [put_flash]
  by_cases hg : st.has_gri_arg_limit
  · rcases Nat.eq_zero_or_pos n with h0 | hpos
    · subst h0
      have hloop : putFlashLoop st = st := by
        rw [putFlashLoop, if_neg (by omega)]
      simp only [hg, if_true, hloop]
      rw [if_neg (by omega)]
      simp [puts, flashOut, flashTail, hc, hg]
    · rw [if_pos hg, putFlashLoop_spec n st hc hpos]
      set r : Nat := (n - 1) % 255 + 1 with hr
      by_cases h3 : 3 < r
      · rw [if_pos (by simp; omega)]
        simp only [flashOut, hg, if_true, putc, puti, puts, intChars]
        have : ¬ ((r : Int) < 0) := by omega
        simp [this, flashTail, if_pos h3, if_neg (by omega : ¬ n = 0)]
      · rw [if_neg (by simp; omega)]
        simp only [flashOut, hg, if_true, puts]
        simp [flashTail, if_neg h3, if_neg (by omega : ¬ n = 0)]
  · simp only [Bool.not_eq_true] at hg
    rw [if_neg (show ¬ (st.has_gri_arg_limit = true) by simp [hg])]
    by_cases h3 : 3 < n
    · rw [if_pos (show (3 : Int) < st.save_count by rw [hc]; exact_mod_cast h3)]
      simp only [putc, puti, puts, intChars, flashOut, hg]
      have hnn : ¬ ((n : Int) < 0) := by omega
      simp [hc, hnn, flashTail, if_pos h3]
    · rw [if_neg (show ¬ ((3 : Int) < st.save_count) by rw [hc]; exact_mod_cast h3)]
      simp [puts, flashOut, hg, flashTail, if_neg h3, hc]

theorem putPixelRun_const (pix : Nat) :
    ∀ (m : Nat) (st : SixelOutput),
      st.save_pixel = (if 63 < pix then 0 else pix) + 63 →
        putPixelRun st pix m = { st with save_count := st.save_count + m } := by
  intro m
  induction m with
  | zero => intro st _; simp [putPixelRun]
  | succ k ih =>
    intro st h
    show putPixelRun (put_pixel st pix) pix k = _
    have hpp : put_pixel st pix = { st with save_count := st.save_count + 1 } := by
      rw [put_pixel]
      simp [← h]
    rw [hpp, ih _ (by simp [h])]
    simp only [SixelOutput.mk.injEq]
    refine ⟨trivial, trivial, by omega, trivial, trivial, trivial, trivial, trivial,
      trivial, trivial, trivial, trivial, trivial⟩

theorem putPixelRun_from_zero (st : SixelOutput) (pix n : Nat)
    (h0 : st.save_count = 0) (h1 : 1 ≤ n) :
    putPixelRun st pix n =
      { st with save_pixel := (if 63 < pix then 0 else pix) + 63, save_count := (n : Int) } := by
  obtain ⟨m, rfl⟩ : ∃ m, n = m + 1 := ⟨n - 1, by omega⟩
  show putPixelRun (put_pixel st pix) pix m = _
  by_cases hp : (if 63 < pix then 0 else pix) + 63 = st.save_pixel
  · have hpp : put_pixel st pix = { st with save_count := st.save_count + 1 } := by
      rw [put_pixel]
      simp [hp]
    rw [hpp, putPixelRun_const pix m _ (by simpa using hp.symm)]
    simp only [SixelOutput.mk.injEq]
    refine ⟨trivial, hp.symm, by omega, trivial, trivial, trivial, trivial, trivial,
      trivial, trivial, trivial, trivial, trivial⟩
  · have hpp : put_pixel st pix =
        { put_flash st with
            save_pixel := (if 63 < pix then 0 else pix) + 63, save_count := 1 } := by
      rw [put_pixel]
      simp [hp]
    rw [hpp, put_flash_spec st 0 h0, putPixelRun_const pix m _ (by simp)]
    simp only [SixelOutput.mk.injEq]
    refine ⟨trivial, trivial, by omega, trivial, trivial, trivial,
      trivial, by simp [flashOut, flashTail], trivial, trivial, trivial, trivial, trivial⟩

/-- C1 counterexample: the claim says that with the repeat-argument limit
enabled a run of `n > 255` identical pixel codes flushes to exactly
`⌈n/255⌉` repeat directives.  For `n = 256` (so `⌈n/255⌉ = 2`) the code
emits `!255`, the data character, and then the one-pixel residue as a single
literal character - only one repeat directive, not two. -/
theorem claim1_run_length_flush_counterexample :
    (put_flash (putPixelRun SixelOutput.new 0 256)).buffer =
        ['!', '2', '5', '5', '?', '?'] ∧
    (put_flash (putPixelRun SixelOutput.new 0 256)).buffer.count '!' = 1 ∧
    (256 + 254) / 255 = 2 := by
  have hbuf : (put_flash (putPixelRun SixelOutput.new 0 256)).buffer =
      ['!', '2', '5', '5', '?', '?'] := by
    rw [putPixelRun_from_zero SixelOutput.new 0 256 rfl (by omega), put_flash_spec _ 256 rfl]
    simp [SixelOutput.new, flashOut, flashTail, flashChunk]
  exact ⟨hbuf, by rw [hbuf]; decide, by norm_num⟩

/-- C1 (amended): a run of `n ≥ 1` identical pixel codes accumulated by
`put_pixel` from an empty run and then flushed by `put_flash` appends exactly
`flashOut`: with the repeat-argument limit enabled, `(n-1)/255` full `!255`
directives followed - for the residue `r = (n-1) % 255 + 1` - by one repeat
directive when `r > 3` and by `r` literal characters when `r ≤ 3` (so for
`n ≤ 3` the character appears literally `n` times and for `4 ≤ n ≤ 255`
exactly one repeat directive is emitted); with the limit disabled, one repeat
directive when `n > 3` and literal repetition otherwise.  After the flush the
saved run length and saved pixel are reset to 0. -/
theorem claim1_run_length_flush_amended (st : SixelOutput) (pix n : Nat)
    (h0 : st.save_count = 0) (h1 : 1 ≤ n) :
    (put_flash (putPixelRun st pix n)).save_count = 0 ∧
    (put_flash (putPixelRun st pix n)).save_pixel = 0 ∧
    (put_flash (putPixelRun st pix n)).buffer =
      st.buffer ++ flashOut st.has_gri_arg_limit ((if 63 < pix then 0 else pix) + 63) n := by
  rw [putPixelRun_from_zero st pix n h0 h1, put_flash_spec _ n rfl]
  simp

/-- C1 witness: the amended run-length law applied to a run of 600 zero
pixel codes on the default output state. -/
theorem claim1_run_length_flush_witness :
    SixelOutput.new.save_count = 0 ∧ 1 ≤ 600 ∧
    ((put_flash (putPixelRun SixelOutput.new 0 600)).save_count = 0 ∧
     (put_flash (putPixelRun SixelOutput.new 0 600)).save_pixel = 0 ∧
     (put_flash (putPixelRun SixelOutput.new 0 600)).buffer =
       SixelOutput.new.buffer ++
         flashOut SixelOutput.new.has_gri_arg_limit ((if 63 < 0 then 0 else 0) + 63) 600) :=
  ⟨rfl, by omega, claim1_run_length_flush_amended SixelOutput.new 0 600 rfl (by omega)⟩

/-- Gap counter of the tile scan (the innermost `n` loop of `encode_body`,
lines 593-599): starting from the unset column `mx`, count how many
consecutive columns `mx + n` are unset, stopping at a set column or at the
band's right edge `width`. -/
def gapRun (row : Nat → Nat) (width mx : Nat) (n : Nat) : Nat :=
  if mx + n < width then
    if row (mx + n) ≠ 0 then n else gapRun row width mx (n + 1)
  else n
termination_by width - (mx + n)

theorem gapRun_ge (row : Nat → Nat) (width mx : Nat) :
    ∀ n, n ≤ gapRun row width mx n := by
  have key : ∀ k n, width - (mx + n) = k → n ≤ gapRun row width mx n := by
    intro k
    induction k using Nat.strong_induction_on with
    | _ k ih =>
      intro n hk
      rw [gapRun]
      by_cases h1 : mx + n < width
      · rw [if_pos h1]
        by_cases h2 : row (mx + n) ≠ 0
        · rw [if_pos h2]
        · rw [if_neg h2]
          have := ih (width - (mx + (n + 1))) (by omega) (n + 1) rfl
          omega
      · rw [if_neg h1]
  exact fun n => key _ n rfl

/-- Tile extension loop (the `mx` loop of `encode_body`, lines 587-606):
extend the tile through set columns, bridging a gap when it is shorter than
ten columns and does not reach the band's right edge, and ending the tile
otherwise. -/
def extendMx (row : Nat → Nat) (width : Nat) (mx : Nat) : Nat :=
  if mx < width then
    if row mx ≠ 0 then extendMx row width (mx + 1)
    else
      let n := gapRun row width mx 1
      if 10 ≤ n ∨ width ≤ mx + n then mx
      else extendMx row width (mx + n)
  else mx
termination_by width - mx
decreasing_by
  · omega
  · have := gapRun_ge row width mx 1
    omega

theorem extendMx_ge (row : Nat → Nat) (width : Nat) :
    ∀ mx, mx ≤ extendMx row width mx := by
  have key : ∀ k mx, width - mx = k → mx ≤ extendMx row width mx := by
    intro k
    induction k using Nat.strong_induction_on with
    | _ k ih =>
      intro mx hk
      rw [extendMx]
      by_cases h1 : mx < width
      · rw [if_pos h1]
        by_cases h2 : row mx ≠ 0
        · rw [if_pos h2]
          have := ih (width - (mx + 1)) (by omega) (mx + 1) rfl
          omega
        · rw [if_neg h2]
          have hge := gapRun_ge row width mx 1
          by_cases h3 : 10 ≤ gapRun row width mx 1 ∨ width ≤ mx + gapRun row width mx 1
          · rw [if_pos h3]
          · rw [if_neg h3]
            have := ih (width - (mx + gapRun row width mx 1)) (by omega)
              (mx + gapRun row width mx 1) rfl
            omega
      · rw [if_neg h1]
  exact fun mx => key _ mx rfl

/-- Tile scan (the `sx` loop of `encode_body`, lines 581-617): extract the
`(sx, mx)` spans of one color's bit-plane row within a band, in discovery
order. -/
def scanTiles (row : Nat → Nat) (width : Nat) (sx : Nat) : List (Nat × Nat) :=
  if sx < width then
    if row sx = 0 then scanTiles row width (sx + 1)
    else
      let mx := extendMx row width (sx + 1)
      (sx, mx) :: scanTiles row width mx
  else []
termination_by width - sx
decreasing_by
  · omega
  · have := extendMx_ge row width (sx + 1)
    omega

theorem scanTiles_skip (row : Nat → Nat) (width : Nat) :
    ∀ (k s e : Nat), e - s = k → s ≤ e → e ≤ width →
      (∀ j, s ≤ j → j < e → row j = 0) →
      scanTiles row width s = scanTiles row width e := by
  intro k
  induction k using Nat.strong_induction_on with
  | _ k ih =>
    intro s e hk hse hew hz
    rcases Nat.eq_or_lt_of_le hse with h | h
    · rw [h]
    · rw [scanTiles, if_pos (by omega), if_pos (hz s le_rfl h)]
      exact ih (e - (s + 1)) (by omega) (s + 1) e rfl (by omega) hew
        (fun j h1 h2 => hz j (by omega) h2)

theorem extendMx_ones (row : Nat → Nat) (width : Nat) :
    ∀ (k mx e : Nat), e - mx = k → mx ≤ e → e ≤ width →
      (∀ j, mx ≤ j → j < e → row j ≠ 0) →
      extendMx row width mx = extendMx row width e := by
  intro k
  induction k using Nat.strong_induction_on with
  | _ k ih =>
    intro mx e hk hse hew ho
    rcases Nat.eq_or_lt_of_le hse with h | h
    · rw [h]
    · rw [extendMx, if_pos (by omega), if_pos (ho mx le_rfl h)]
      exact ih (e - (mx + 1)) (by omega) (mx + 1) e rfl (by omega) hew
        (fun j h1 h2 => ho j (by omega) h2)

theorem gapRun_stop (row : Nat → Nat) (width mx : Nat) (s : Nat) (hsw : s < width)
    (hs : row s ≠ 0) :
    ∀ (k n : Nat), s - (mx + n) = k → mx + n ≤ s →
      (∀ j, mx + n ≤ j → j < s → row j = 0) →
      gapRun row width mx n = s - mx := by
  intro k
  induction k using Nat.strong_induction_on with
  | _ k ih =>
    intro n hk hns hz
    rcases Nat.eq_or_lt_of_le hns with h | h
    · rw [gapRun, if_pos (by omega), if_pos (h ▸ hs)]
      omega
    · rw [gapRun, if_pos (by omega), if_neg (by simpa using hz (mx + n) le_rfl h)]
      exact ih (s - (mx + (n + 1))) (by omega) (n + 1) rfl (by omega)
        (fun j h1 h2 => hz j (by omega) h2)

theorem gapRun_edge (row : Nat → Nat) (width mx : Nat) :
    ∀ (k n : Nat), width - (mx + n) = k → mx + n ≤ width →
      (∀ j, mx + n ≤ j → j < width → row j = 0) →
      gapRun row width mx n = width - mx := by
  intro k
  induction k using Nat.strong_induction_on with
  | _ k ih =>
    intro n hk hnw hz
    rcases Nat.eq_or_lt_of_le hnw with h | h
    · rw [gapRun, if_neg (by omega)]
      omega
    · rw [gapRun, if_pos h, if_neg (by simpa using hz (mx + n) le_rfl h)]
      exact ih (width - (mx + (n + 1))) (by omega) (n + 1) rfl (by omega)
        (fun j h1 h2 => hz j (by omega) h2)

theorem extendMx_at_width (row : Nat → Nat) (width mx : Nat) (h : width ≤ mx) :
    extendMx row width mx = mx := by
  rw [extendMx, if_neg (by omega)]

theorem extendMx_trailing (row : Nat → Nat) (width mx : Nat) (h1 : mx < width)
    (hz : ∀ j, mx ≤ j → j < width → row j = 0) :
    extendMx row width mx = mx := by
  have hg : gapRun row width mx 1 = width - mx :=
    gapRun_edge row width mx _ 1 rfl (by omega) (fun j ha hb => hz j (by omega) hb)
  rw [extendMx, if_pos h1, if_neg (by simpa using hz mx le_rfl h1), hg,
    if_pos (Or.inr (by omega))]

theorem extendMx_gap_break (row : Nat → Nat) (width mx s : Nat) (h1 : mx < width)
    (hms : mx < s) (hsw : s < width) (hs : row s ≠ 0)
    (hz : ∀ j, mx ≤ j → j < s → row j = 0) (hlen : 10 ≤ s - mx) :
    extendMx row width mx = mx := by
  have hg : gapRun row width mx 1 = s - mx :=
    gapRun_stop row width mx s hsw hs _ 1 rfl (by omega) (fun j ha hb => hz j (by omega) hb)
  rw [extendMx, if_pos h1, if_neg (by simpa using hz mx le_rfl hms), hg,
    if_pos (Or.inl hlen)]

theorem extendMx_gap_bridge (row : Nat → Nat) (width mx s : Nat) (h1 : mx < width)
    (hms : mx < s) (hsw : s < width) (hs : row s ≠ 0)
    (hz : ∀ j, mx ≤ j → j < s → row j = 0) (hlen : s - mx < 10) :
    extendMx row width mx = extendMx row width s := by
  have hg : gapRun row width mx 1 = s - mx :=
    gapRun_stop row width mx s hsw hs _ 1 rfl (by omega) (fun j ha hb => hz j (by omega) hb)
  rw [extendMx, if_pos h1, if_neg (by simpa using hz mx le_rfl hms), hg,
    if_neg (by omega)]
  congr 1
  omega

/-- A band bit-plane row holding exactly two spans of set columns: a span of
`p` set columns starting at `a` and a span of `q` set columns starting at
`a + p + g`, separated by a gap of `g` unset columns. -/
def twoSpanRow (a p g q : Nat) : Nat → Nat := fun i =>
  if (a ≤ i ∧ i < a + p) ∨ (a + p + g ≤ i ∧ i < a + p + g + q) then 1 else 0

theorem twoSpanRow_ne_zero (a p g q j : Nat)
    (h : (a ≤ j ∧ j < a + p) ∨ (a + p + g ≤ j ∧ j < a + p + g + q)) :
    twoSpanRow a p g q j ≠ 0 := by
  simp only [twoSpanRow, if_pos h]
  omega

theorem twoSpanRow_eq_zero (a p g q j : Nat)
    (h : ¬ ((a ≤ j ∧ j < a + p) ∨ (a + p + g ≤ j ∧ j < a + p + g + q))) :
    twoSpanRow a p g q j = 0 := by
  simp only [twoSpanRow, if_neg h]

/-- C4: within one six-row band the tile scan of `encode_body` merges two
same-color spans separated by a gap of `g` unset columns into a single tile
exactly when `g < 10` and the bridged extent (the start of the second span)
does not reach the band's right edge - a condition that always holds when
the second span lies inside the band - and otherwise produces two separate
tiles, the second starting at the next set column. -/
theorem claim4_tile_merge (a p g q t width : Nat) (hp : 1 ≤ p) (hq : 1 ≤ q)
    (hg : 1 ≤ g) (hw : a + p + g + q + t = width) :
    scanTiles (twoSpanRow a p g q) width 0 =
      if g < 10 ∧ a + p + g < width then [(a, a + p + g + q)]
      else [(a, a + p), (a + p + g, a + p + g + q)] := by
  set row := twoSpanRow a p g q with hrow
  have hz1 : ∀ j, j < a → row j = 0 := fun j hj =>
    twoSpanRow_eq_zero a p g q j (by omega)
  have hz2 : ∀ j, a + p ≤ j → j < a + p + g → row j = 0 := fun j h1 h2 =>
    twoSpanRow_eq_zero a p g q j (by omega)
  have hz3 : ∀ j, a + p + g + q ≤ j → row j = 0 := fun j hj =>
    twoSpanRow_eq_zero a p g q j (by omega)
  have ho1 : ∀ j, a ≤ j → j < a + p → row j ≠ 0 := fun j h1 h2 =>
    twoSpanRow_ne_zero a p g q j (Or.inl ⟨h1, h2⟩)
  have ho2 : ∀ j, a + p + g ≤ j → j < a + p + g + q → row j ≠ 0 := fun j h1 h2 =>
    twoSpanRow_ne_zero a p g q j (Or.inr ⟨h1, h2⟩)
  have ha : a < width := by omega
  have hapg : a + p + g < width := by omega
  have hE : extendMx row width (a + p + g + q) = a + p + g + q := by
    rcases Nat.eq_or_lt_of_le (by omega : a + p + g + q ≤ width) with h | h
    · exact extendMx_at_width row width _ (by omega)
    · exact extendMx_trailing row width _ h (fun j h1 h2 => hz3 j h1)
  have hscanE : scanTiles row width (a + p + g + q) = [] := by
    rw [scanTiles_skip row width (width - (a + p + g + q)) (a + p + g + q) width rfl
      (by omega) le_rfl (fun j h1 h2 => hz3 j h1)]
    rw [scanTiles, if_neg (by omega)]
  have hones2 : extendMx row width (a + p + g + 1) = a + p + g + q := by
    rw [extendMx_ones row width (a + p + g + q - (a + p + g + 1)) (a + p + g + 1)
      (a + p + g + q) rfl (by omega) (by omega) (fun j h1 h2 => ho2 j (by omega) h2), hE]
  have hones1 : extendMx row width (a + 1) = extendMx row width (a + p) := by
    rw [extendMx_ones row width (a + p - (a + 1)) (a + 1) (a + p) rfl (by omega)
      (by omega) (fun j h1 h2 => ho1 j (by omega) h2)]
  have hskip0 : scanTiles row width 0 = scanTiles row width a :=
    scanTiles_skip row width a 0 a (by omega) (by omega) (by omega)
      (fun j h1 h2 => hz1 j h2)
  by_cases hcase : g < 10
  · have hbridge : extendMx row width (a + p) = extendMx row width (a + p + g) :=
      extendMx_gap_bridge row width (a + p) (a + p + g) (by omega) (by omega) hapg
        (ho2 _ le_rfl (by omega)) (fun j h1 h2 => hz2 j h1 h2) (by omega)
    have hM : extendMx row width (a + 1) = a + p + g + q := by
      rw [hones1, hbridge]
      rw [extendMx, if_pos hapg, if_pos (ho2 _ le_rfl (by omega))]
      exact hones2
    rw [hskip0, scanTiles, if_pos ha, if_neg (by simpa using ho1 a le_rfl (by omega)), hM]
    simp only [hscanE]
    rw [if_pos ⟨hcase, hapg⟩]
  · have hbreak : extendMx row width (a + p) = a + p :=
      extendMx_gap_break row width (a + p) (a + p + g) (by omega) (by omega) hapg
        (ho2 _ le_rfl (by omega)) (fun j h1 h2 => hz2 j h1 h2) (by omega)
    have hM : extendMx row width (a + 1) = a + p := by rw [hones1, hbreak]
    have hskip2 : scanTiles row width (a + p) = scanTiles row width (a + p + g) :=
      scanTiles_skip row width g (a + p) (a + p + g) (by omega) (by omega) (by omega)
        (fun j h1 h2 => hz2 j h1 h2)
    have hM2 : extendMx row width (a + p + g + 1) = a + p + g + q := hones2
    rw [hskip0, scanTiles, if_pos ha, if_neg (by simpa using ho1 a le_rfl (by omega)), hM]
    simp only [hskip2]
    rw [scanTiles, if_pos hapg, if_neg (by simpa using ho2 _ le_rfl (by omega)), hM2]
    simp only [hscanE]
    rw [if_neg (by omega)]

/-- C4 witness: the tile-merge law applied to a band of width 9 holding a
two-column span at 1 and a two-column span at 6 separated by a three-column
gap, which merge into the single tile `(1, 8)`. -/
theorem claim4_tile_merge_witness :
    1 ≤ 2 ∧ 1 ≤ 3 ∧ 1 + 2 + 3 + 2 + 1 = 9 ∧
    scanTiles (twoSpanRow 1 2 3 2) 9 0 =
      (if 3 < 10 ∧ 1 + 2 + 3 < 9 then [(1, 1 + 2 + 3 + 2)]
       else [(1, 1 + 2), (1 + 2 + 3, 1 + 2 + 3 + 2)]) :=
  ⟨by omega, by omega, by omega,
    claim4_tile_merge 1 2 3 2 1 9 (by omega) (by omega) (by omega) (by omega)⟩

theorem charToNat_inj {c d : Char} (h : c.toNat = d.toNat) : c = d := by
  apply Char.eq_of_val_eq
  apply UInt32.eq_of_toBitVec_eq
  exact BitVec.eq_of_toNat_eq h

theorem charOfNat_toNat (p : Nat) (h : p < 55296) : (Char.ofNat p).toNat = p := by
  have hv : p.isValidChar := Or.inl (by omega)
  rw [Char.ofNat, dif_pos hv]
  rfl

theorem natDigits_range (n : Nat) : ∀ c ∈ natDigits n, 48 ≤ c.toNat ∧ c.toNat ≤ 57 := by
  induction n using Nat.strong_induction_on with
  | _ n ih =>
    intro c hc
    rw [natDigits] at hc
    by_cases h : n < 10
    · rw [if_pos h] at hc
      simp only [List.mem_singleton] at hc
      subst hc
      rw [digitChar, charOfNat_toNat (48 + n) (by omega)]
      omega
    · rw [if_neg h] at hc
      rcases List.mem_append.mp hc with h1 | h1
      · exact ih (n / 10) (Nat.div_lt_self (by omega) (by omega)) c h1
      · simp only [List.mem_singleton] at h1
        subst h1
        rw [digitChar, charOfNat_toNat (48 + n % 10) (by omega)]
        have := Nat.mod_lt n (show 0 < 10 by omega)
        omega

/-- Characters that the run-length layer (`put_pixel` / `put_flash`) can
emit: the repeat introducer, decimal digits, the NUL placeholder of an empty
run, and data characters in the printable window 63-126. -/
def RunChar (c : Char) : Prop :=
  c = '!' ∨ (48 ≤ c.toNat ∧ c.toNat ≤ 57) ∨ c.toNat = 0 ∨ (63 ≤ c.toNat ∧ c.toNat ≤ 126)

/-- Invariant on the pending run: the saved pixel is NUL or a data character
and the saved count is nonnegative. -/
def SaveOk (st : SixelOutput) : Prop :=
  (st.save_pixel = 0 ∨ (63 ≤ st.save_pixel ∧ st.save_pixel ≤ 126)) ∧ 0 ≤ st.save_count

theorem flashOut_chars (limit : Bool) (p n : Nat)
    (hp : p = 0 ∨ (63 ≤ p ∧ p ≤ 126)) : ∀ c ∈ flashOut limit p n, RunChar c := by
  have hpc : RunChar (Char.ofNat p) := by
    have ht : (Char.ofNat p).toNat = p := charOfNat_toNat p (by omega)
    rcases hp with h | h
    · exact Or.inr (Or.inr (Or.inl (by omega)))
    · exact Or.inr (Or.inr (Or.inr (by omega)))
  have htail : ∀ m c, c ∈ flashTail p m → RunChar c := by
    intro m c hc
    rw [flashTail] at hc
    by_cases h3 : 3 < m
    · rw [if_pos h3] at hc
      rcases List.mem_cons.mp hc with h | h
      · exact Or.inl h
      · rcases List.mem_append.mp h with h | h
        · exact Or.inr (Or.inl (natDigits_range m c h))
        · simp only [List.mem_singleton] at h
          exact h ▸ hpc
    · rw [if_neg h3] at hc
      rw [List.eq_of_mem_replicate hc]
      exact hpc
  intro c hc
  rw [flashOut] at hc
  cases limit with
  | false =>
    rw [if_neg (by simp)] at hc
    exact htail n c hc
  | true =>
    rw [if_pos rfl] at hc
    rcases List.mem_append.mp hc with h | h
    · rcases List.mem_flatten.mp h with ⟨l, hl, hcl⟩
      rw [List.eq_of_mem_replicate hl, flashChunk] at hcl
      simp only [List.mem_cons, List.not_mem_nil, or_false] at hcl
      rcases hcl with h | h | h | h | h
      · exact Or.inl h
      · exact Or.inr (Or.inl (by rw [h]; decide))
      · exact Or.inr (Or.inl (by rw [h]; decide))
      · exact Or.inr (Or.inl (by rw [h]; decide))
      · exact h ▸ hpc
    · exact htail _ c h

theorem put_flash_delta (st : SixelOutput) (hsc : 0 ≤ st.save_count) :
    put_flash st =
      { st with
          buffer := st.buffer ++ flashOut st.has_gri_arg_limit st.save_pixel st.save_count.toNat,
          save_pixel := 0,
          save_count := 0 } :=
  put_flash_spec st st.save_count.toNat (by omega)

theorem put_pixel_chars (st : SixelOutput) (pix : Nat) (h : SaveOk st) :
    ∃ d sp sc,
      put_pixel st pix =
        { st with buffer := st.buffer ++ d, save_pixel := sp, save_count := sc } ∧
      (∀ c ∈ d, RunChar c) ∧ (sp = 0 ∨ (63 ≤ sp ∧ sp ≤ 126)) ∧ 0 ≤ sc := by
  rw [put_pixel]
  by_cases hb : (if 63 < pix then 0 else pix) + 63 = st.save_pixel
  · refine ⟨[], st.save_pixel, st.save_count + 1, ?_, by simp, h.1, by have := h.2; omega⟩
    simp only [hb, if_pos rfl]
    simp
  · rw [if_neg hb, put_flash_delta st h.2]
    refine ⟨flashOut st.has_gri_arg_limit st.save_pixel st.save_count.toNat,
      (if 63 < pix then 0 else pix) + 63, 1, rfl,
      flashOut_chars _ _ _ h.1, ?_, by omega⟩
    by_cases h63 : 63 < pix
    · simp [h63]
    · simp only [if_neg h63]
      omega

/-- First loop of the source's `put_node` (lines 325-330): advance the
cursor to the tile start, emitting blank pixel codes and skipping the column
equal to `keycolor`. -/
def putNodeFill (st : SixelOutput) (x sx keycolor : Int) : SixelOutput × Int :=
  if x < sx then
    putNodeFill (if x ≠ keycolor then put_pixel st 0 else st) (x + 1) sx keycolor
  else (st, x)
termination_by (sx - x).toNat
decreasing_by omega

/-- Second loop of the source's `put_node` (lines 331-336): emit the tile's
bitplane codes from the cursor to `mx`, skipping the column equal to
`keycolor`.  The in-range access `np.map[x]` is modelled with `getD` (nodes
are always built with maps at least `mx` long). -/
def putNodeBody (st : SixelOutput) (x : Int) (np : SixelNode) (keycolor : Int) :
    SixelOutput × Int :=
  if x < np.mx then
    putNodeBody (if x ≠ keycolor then put_pixel st (np.map.getD x.toNat 0) else st)
      (x + 1) np keycolor
  else (st, x)
termination_by (np.mx - x).toNat
decreasing_by omega

/-- The source's `SixelOutput::put_node` (lines 307-339): select the node's
palette entry - unless a two-color palette with a keycolor suppresses
selection - then render the tile from the cursor and flush the run. -/
def put_node (st : SixelOutput) (x : Int) (np : SixelNode) (ncolors keycolor : Int) :
    SixelOutput × Int :=
  let st :=
    if ncolors ≠ 2 ∨ keycolor = -1 then
      if st.active_palette ≠ np.pal then
        { puti (putc st '#') np.pal with active_palette := np.pal }
      else st
    else st
  let p2 := putNodeFill st x np.sx keycolor
  let p3 := putNodeBody p2.1 p2.2 np keycolor
  (put_flash p3.1, p3.2)

/-- Relation describing one or more run-layer emissions: the buffer grows by
run characters only, the pending-run invariant holds afterwards, and every
other field is untouched. -/
def RunDelta (st st' : SixelOutput) : Prop :=
  ∃ d sp sc,
    st' = { st with buffer := st.buffer ++ d, save_pixel := sp, save_count := sc } ∧
    (∀ c ∈ d, RunChar c) ∧ (sp = 0 ∨ (63 ≤ sp ∧ sp ≤ 126)) ∧ 0 ≤ sc

theorem RunDelta.rfl (st : SixelOutput) (h : SaveOk st) : RunDelta st st := by
  refine ⟨[], st.save_pixel, st.save_count, by simp, by simp, h.1, h.2⟩

theorem RunDelta.saveOk {a b : SixelOutput} (h : RunDelta a b) : SaveOk b := by
  obtain ⟨d, sp, sc, he, _, h1, h2⟩ := h
  rw [he]
  exact ⟨h1, h2⟩

theorem RunDelta.trans {a b c : SixelOutput} (h1 : RunDelta a b) (h2 : RunDelta b c) :
    RunDelta a c := by
  obtain ⟨d1, sp1, sc1, he1, hc1, _, _⟩ := h1
  obtain ⟨d2, sp2, sc2, he2, hc2, hp2, hn2⟩ := h2
  refine ⟨d1 ++ d2, sp2, sc2, ?_, ?_, hp2, hn2⟩
  · rw [he2, he1]
    simp
  · intro ch hch
    rcases List.mem_append.mp hch with h | h
    · exact hc1 ch h
    · exact hc2 ch h

theorem put_pixel_runDelta (st : SixelOutput) (pix : Nat) (h : SaveOk st) :
    RunDelta st (put_pixel st pix) := by
  obtain ⟨d, sp, sc, he, hc, hp, hn⟩ := put_pixel_chars st pix h
  exact ⟨d, sp, sc, he, hc, hp, hn⟩

theorem put_flash_runDelta (st : SixelOutput) (h : SaveOk st) :
    RunDelta st (put_flash st) :=
  ⟨flashOut st.has_gri_arg_limit st.save_pixel st.save_count.toNat, 0, 0,
    put_flash_delta st h.2, flashOut_chars _ _ _ h.1, Or.inl (by omega), le_refl 0⟩

theorem putNodeFill_runDelta (sx keycolor : Int) :
    ∀ (k : Nat) (st : SixelOutput) (x : Int), (sx - x).toNat = k → SaveOk st →
      ∃ st2 x2, putNodeFill st x sx keycolor = (st2, x2) ∧ RunDelta st st2 := by
  intro k
  induction k using Nat.strong_induction_on with
  | _ k ih =>
    intro st x hk hok
    rw [putNodeFill]
    by_cases hx : x < sx
    · rw [if_pos hx]
      by_cases hxk : x ≠ keycolor
      · rw [if_pos hxk]
        have h1 : RunDelta st (put_pixel st 0) := put_pixel_runDelta st 0 hok
        obtain ⟨st2, x2, he, hd⟩ := ih ((sx - (x + 1)).toNat) (by omega) (put_pixel st 0)
          (x + 1) rfl h1.saveOk
        exact ⟨st2, x2, he, h1.trans hd⟩
      · rw [if_neg hxk]
        exact ih ((sx - (x + 1)).toNat) (by omega) st (x + 1) rfl hok
    · rw [if_neg hx]
      exact ⟨st, x, Prod.mk.injEq .. ▸ rfl, RunDelta.rfl st hok⟩

theorem putNodeBody_runDelta (np : SixelNode) (keycolor : Int) :
    ∀ (k : Nat) (st : SixelOutput) (x : Int), (np.mx - x).toNat = k → SaveOk st →
      ∃ st2 x2, putNodeBody st x np keycolor = (st2, x2) ∧ RunDelta st st2 := by
  intro k
  induction k using Nat.strong_induction_on with
  | _ k ih =>
    intro st x hk hok
    rw [putNodeBody]
    by_cases hx : x < np.mx
    · rw [if_pos hx]
      by_cases hxk : x ≠ keycolor
      · rw [if_pos hxk]
        have h1 : RunDelta st (put_pixel st (np.map.getD x.toNat 0)) :=
          put_pixel_runDelta st _ hok
        obtain ⟨st2, x2, he, hd⟩ := ih ((np.mx - (x + 1)).toNat) (by omega)
          (put_pixel st (np.map.getD x.toNat 0)) (x + 1) rfl h1.saveOk
        exact ⟨st2, x2, he, h1.trans hd⟩
      · rw [if_neg hxk]
        exact ih ((np.mx - (x + 1)).toNat) (by omega) st (x + 1) rfl hok
    · rw [if_neg hx]
      exact ⟨st, x, rfl, RunDelta.rfl st hok⟩

theorem not_runChar_hash : ¬ RunChar '#' := by
  unfold RunChar
  decide

theorem runlist_hash_zero (d : List Char) (h : ∀ c ∈ d, RunChar c) :
    d.count '#' = 0 :=
  List.count_eq_zero.mpr (fun hc => not_runChar_hash (h _ hc))

theorem natDigits_hash_zero (n : Nat) : (natDigits n).count '#' = 0 := by
  refine List.count_eq_zero.mpr (fun hc => ?_)
  have := natDigits_range n '#' hc
  revert this
  decide

theorem put_node_spec (st : SixelOutput) (x : Int) (np : SixelNode) (ncolors keycolor : Int)
    (hok : SaveOk st) (hpal : 0 ≤ np.pal) :
    ∃ d x',
      put_node st x np ncolors keycolor =
        ({ st with
            buffer := st.buffer ++ d,
            save_pixel := 0, save_count := 0,
            active_palette :=
              if ncolors ≠ 2 ∨ keycolor = -1 then np.pal else st.active_palette }, x') ∧
      (∀ c ∈ d, RunChar c ∨ c = '#') ∧
      d.count '#' =
        (if (ncolors ≠ 2 ∨ keycolor = -1) ∧ st.active_palette ≠ np.pal then 1 else 0) := by
  have tail : ∀ (d₀ : List Char) (A : Int), (∀ c ∈ d₀, RunChar c ∨ c = '#') →
      ∃ d x',
        (let p2 := putNodeFill { st with buffer := st.buffer ++ d₀, active_palette := A }
            x np.sx keycolor;
         let p3 := putNodeBody p2.1 p2.2 np keycolor;
         (put_flash p3.1, p3.2)) =
          ({ st with
              buffer := st.buffer ++ d,
              save_pixel := 0,
              save_count := 0,
              active_palette := A }, x') ∧
        (∀ c ∈ d, RunChar c ∨ c = '#') ∧ d.count '#' = d₀.count '#' := by
    intro d₀ A hch₀
    set st₀ : SixelOutput := { st with buffer := st.buffer ++ d₀, active_palette := A }
      with hst₀
    have hok₀ : SaveOk st₀ := ⟨hok.1, hok.2⟩
    obtain ⟨st2, x2, he2, hd2⟩ :=
      putNodeFill_runDelta np.sx keycolor (np.sx - x).toNat st₀ x rfl hok₀
    obtain ⟨st3, x3, he3, hd3⟩ :=
      putNodeBody_runDelta np keycolor (np.mx - x2).toNat st2 x2 rfl hd2.saveOk
    obtain ⟨d23, sp3, sc3, hde, hdc, hdp, hdn⟩ := hd2.trans hd3
    have hfl := put_flash_delta st3 (by rw [hde]; exact hdn)
    refine ⟨d₀ ++ (d23 ++ flashOut st.has_gri_arg_limit sp3 sc3.toNat), x3, ?_, ?_, ?_⟩
    · simp only [he2, he3]
      rw [hfl, hde]
      simp [hst₀, List.append_assoc]
    · intro c hc
      rcases List.mem_append.mp hc with h | h
      · exact hch₀ c h
      · rcases List.mem_append.mp h with h | h
        · exact Or.inl (hdc c h)
        · exact Or.inl (flashOut_chars _ _ _ hdp c h)
    · rw [List.count_append, List.count_append, runlist_hash_zero d23 hdc,
        runlist_hash_zero _ (flashOut_chars _ _ _ hdp)]
      omega
  by_cases hcond : ncolors ≠ 2 ∨ keycolor = -1
  · by_cases hact : st.active_palette ≠ np.pal
    · obtain ⟨d, x', heq, hch, hcnt⟩ := tail ('#' :: intChars np.pal) np.pal (by
        intro c hc
        rcases List.mem_cons.mp hc with h | h
        · exact Or.inr h
        · rw [intChars, if_neg (by omega)] at h
          exact Or.inl (Or.inr (Or.inl (natDigits_range _ c h))))
      refine ⟨d, x', ?_, hch, ?_⟩
      · rw [put_node]
        have hpre : (if ncolors ≠ 2 ∨ keycolor = -1 then
              (if st.active_palette ≠ np.pal then
                { puti (putc st '#') np.pal with active_palette := np.pal }
              else st)
            else st) =
            { st with
                buffer := st.buffer ++ ('#' :: intChars np.pal),
                active_palette := np.pal } := by
          rw [if_pos hcond, if_pos hact]
          simp [puti, putc, puts]
        rw [hpre, if_pos hcond]
        exact heq
      · rw [hcnt, if_pos ⟨hcond, hact⟩]
        rw [List.count_cons]
        simp [intChars, if_neg (show ¬ np.pal < 0 by omega), natDigits_hash_zero]
    · obtain ⟨d, x', heq, hch, hcnt⟩ := tail [] np.pal (by simp)
      refine ⟨d, x', ?_, hch, ?_⟩
      · rw [put_node]
        have hpre : (if ncolors ≠ 2 ∨ keycolor = -1 then
              (if st.active_palette ≠ np.pal then
                { puti (putc st '#') np.pal with active_palette := np.pal }
              else st)
            else st) =
            { st with
                buffer := st.buffer ++ ([] : List Char),
                active_palette := np.pal } := by
          rw [if_pos hcond, if_neg hact]
          simp only [ne_eq, not_not] at hact
          simp [← hact]
        rw [hpre, if_pos hcond]
        exact heq
      · rw [hcnt, if_neg (by tauto)]
        simp
  · obtain ⟨d, x', heq, hch, hcnt⟩ := tail [] st.active_palette (by simp)
    refine ⟨d, x', ?_, hch, ?_⟩
    · rw [put_node]
      have hpre : (if ncolors ≠ 2 ∨ keycolor = -1 then
            (if st.active_palette ≠ np.pal then
              { puti (putc st '#') np.pal with active_palette := np.pal }
            else st)
          else st) =
          { st with
              buffer := st.buffer ++ ([] : List Char),
              active_palette := st.active_palette } := by
        rw [if_neg hcond]
        simp
      rw [hpre, if_neg hcond]
      exact heq
    · rw [hcnt, if_neg (by tauto)]
      simp

/-- C5 counterexample: the claim says a palette-select directive is emitted
exactly when the tile's color differs from the tracked active palette, for
every `ncolors` and `keycolor`.  With `ncolors = 2` and `keycolor = 0` the
code suppresses palette selection entirely: rendering a tile of color 1
while the tracked active palette is -1 (different) emits no `#` at all. -/
theorem claim5_palette_reselect_counterexample :
    (put_node SixelOutput.new 0 ⟨1, 0, 1, [1]⟩ 2 0).1.buffer.count '#' = 0 ∧
    SixelOutput.new.active_palette ≠ (1 : Int) := by
  obtain ⟨d, x', heq, hch, hcnt⟩ :=
    put_node_spec SixelOutput.new 0 ⟨1, 0, 1, [1]⟩ 2 0 ⟨Or.inl rfl, le_refl 0⟩ (by decide)
  refine ⟨?_, by decide⟩
  rw [heq]
  show (SixelOutput.new.buffer ++ d).count '#' = 0
  rw [List.count_append, hcnt, if_neg (by simp)]
  decide

/-- C5 (amended): during body rendering, `put_node` emits a palette-select
directive exactly when palette selection is not suppressed (it is suppressed
precisely when `ncolors = 2` and `keycolor ≠ -1`) and the tile's color
differs from the tracked active palette; the tracked index is then updated
to the tile's color.  Hence consecutive tiles of the same color emit at most
one palette-select between them: the second such tile emits none. -/
theorem claim5_palette_reselect_amended (st : SixelOutput) (x : Int) (np : SixelNode)
    (ncolors keycolor : Int) (hok : SaveOk st) (hpal : 0 ≤ np.pal) :
    (put_node st x np ncolors keycolor).1.buffer.count '#' =
        st.buffer.count '#' +
          (if (ncolors ≠ 2 ∨ keycolor = -1) ∧ st.active_palette ≠ np.pal then 1 else 0) ∧
    (put_node st x np ncolors keycolor).1.active_palette =
        (if ncolors ≠ 2 ∨ keycolor = -1 then np.pal else st.active_palette) ∧
    (∀ (y : Int) (np2 : SixelNode), np2.pal = np.pal → (ncolors ≠ 2 ∨ keycolor = -1) →
      (put_node (put_node st x np ncolors keycolor).1 y np2 ncolors
          keycolor).1.buffer.count '#' =
        (put_node st x np ncolors keycolor).1.buffer.count '#') := by
  obtain ⟨d, x', heq, hch, hcnt⟩ := put_node_spec st x np ncolors keycolor hok hpal
  have hbuf : (put_node st x np ncolors keycolor).1.buffer = st.buffer ++ d := by
    rw [heq]
  have hact : (put_node st x np ncolors keycolor).1.active_palette =
      (if ncolors ≠ 2 ∨ keycolor = -1 then np.pal else st.active_palette) := by
    rw [heq]
  refine ⟨by rw [hbuf, List.count_append, hcnt], hact, ?_⟩
  intro y np2 hp2 hcond
  have hok1 : SaveOk (put_node st x np ncolors keycolor).1 := by
    rw [heq]
    exact ⟨Or.inl rfl, le_refl 0⟩
  obtain ⟨d2, x2, heq2, hch2, hcnt2⟩ :=
    put_node_spec (put_node st x np ncolors keycolor).1 y np2 ncolors keycolor hok1
      (hp2 ▸ hpal)
  rw [heq2]
  show ((put_node st x np ncolors keycolor).1.buffer ++ d2).count '#' = _
  rw [List.count_append, hcnt2, if_neg ?_, Nat.add_zero]
  rw [hact, if_pos hcond, hp2]
  simp

/-- C5 witness: the amended palette-reselect law applied to a fresh output
state and a color-3 tile with a four-color palette and no keycolor. -/
theorem claim5_palette_reselect_witness :
    SaveOk SixelOutput.new ∧ 0 ≤ (3 : Int) ∧
    ((put_node SixelOutput.new 0 ⟨3, 0, 1, [1]⟩ 4 (-1)).1.buffer.count '#' =
        SixelOutput.new.buffer.count '#' +
          (if ((4 : Int) ≠ 2 ∨ (-1 : Int) = -1) ∧
              SixelOutput.new.active_palette ≠ (⟨3, 0, 1, [1]⟩ : SixelNode).pal
            then 1 else 0) ∧
     (put_node SixelOutput.new 0 ⟨3, 0, 1, [1]⟩ 4 (-1)).1.active_palette =
        (if (4 : Int) ≠ 2 ∨ (-1 : Int) = -1 then (⟨3, 0, 1, [1]⟩ : SixelNode).pal
         else SixelOutput.new.active_palette) ∧
     (∀ (y : Int) (np2 : SixelNode), np2.pal = (⟨3, 0, 1, [1]⟩ : SixelNode).pal →
        ((4 : Int) ≠ 2 ∨ (-1 : Int) = -1) →
        (put_node (put_node SixelOutput.new 0 ⟨3, 0, 1, [1]⟩ 4 (-1)).1 y np2 4
            (-1)).1.buffer.count '#' =
          (put_node SixelOutput.new 0 ⟨3, 0, 1, [1]⟩ 4 (-1)).1.buffer.count '#')) :=
  ⟨⟨Or.inl rfl, le_refl 0⟩, by omega,
    claim5_palette_reselect_amended SixelOutput.new 0 ⟨3, 0, 1, [1]⟩ 4 (-1)
      ⟨Or.inl rfl, le_refl 0⟩ (by decide)⟩

/-- Guarded list read: Rust slice indexing, which panics when the index is
out of range. -/
def listGet (l : List Nat) (i : Nat) : Except Failure Nat :=
  match l.get? i with
  | some v => .ok v
  | none => .error .panic

/-- Guarded list write: Rust slice index assignment, which panics when the
index is out of range. -/
def listSet (l : List Nat) (i : Nat) (v : Nat) : Except Failure (List Nat) :=
  if i < l.length then .ok (l.set i v) else .error .panic

/-- The source's `output_rgb_palette_definition` (lines 403-429): emit a
`#Pc;2;Pr;Pg;Pb` graphics-color-introducer with channels rescaled from
0-255 to 0-100 by `(v * 100 + 127) / 255`.  The color index `n` is
nonnegative at every call site (`n as usize` is modelled by `toNat`). -/
def output_rgb_palette_definition (st : SixelOutput) (palette : List Nat)
    (n keycolor : Int) : Except Failure SixelOutput :=
  if n ≠ keycolor then do
    let r ← listGet palette (n.toNat * 3)
    let g ← listGet palette (n.toNat * 3 + 1)
    let b ← listGet palette (n.toNat * 3 + 2)
    let st := puti (putc st '#') n
    let st := puts st [';', '2', ';']
    let st := puti st ((r * 100 + 127) / 255 : Nat)
    let st := puti (putc st ';') ((g * 100 + 127) / 255 : Nat)
    let st := puti (putc st ';') ((b * 100 + 127) / 255 : Nat)
    pure st
  else pure st

/-- The source's `output_hls_palette_definition` (lines 432-488): emit a
`#Pc;1;Ph;Pl;Ps` definition after converting RGB to HLS.  Rust's truncating
`i32` division is `Int.tdiv`. -/
def output_hls_palette_definition (st : SixelOutput) (palette : List Nat)
    (n keycolor : Int) : Except Failure SixelOutput :=
  if n ≠ keycolor then do
    let r ← listGet palette (n.toNat * 3)
    let g ← listGet palette (n.toNat * 3 + 1)
    let b ← listGet palette (n.toNat * 3 + 2)
    let r : Int := r
    let g : Int := g
    let b : Int := b
    let mx := max (max r g) b
    let mn := min (min r g) b
    let l := ((mx + mn) * 100 + 255).tdiv 510
    let s : Int :=
      if mx = mn then 0
      else if l < 50 then ((mx - mn) * 100).tdiv (mx + mn)
      else ((mx - mn) * 100).tdiv ((255 - mx) + (255 - mn))
    let h : Int :=
      if mx = mn then 0
      else if r = mx then 120 + ((g - b) * 60).tdiv (mx - mn)
      else if g = mx then 240 + ((b - r) * 60).tdiv (mx - mn)
      else if r < g then 360 + ((r - g) * 60).tdiv (mx - mn)
      else 0 + ((r - g) * 60).tdiv (mx - mn)
    let st := puti (putc st '#') n
    let st := puts st [';', '1', ';']
    let st := puti st h
    let st := puti (putc st ';') l
    let st := puti (putc st ';') s
    pure st
  else pure st

/-- The bit-plane row of color `c` as a function of the column, as read by
the tile scan (`map[c * width + x]`; in range whenever `c < ncolors` and
`x < width` since the map has `ncolors * width` entries). -/
def mapRow (map : List Nat) (width c : Nat) : Nat → Nat :=
  fun i => map.getD (c * width + i) 0

/-- Nodes discovered for one color by the tile scan (lines 607-612): each
span `(sx, mx)` becomes a node carrying the color and the map suffix from
the color's row onward (`map[c * width ..].to_vec()`). -/
def nodesOfColor (map : List Nat) (width c : Nat) : List SixelNode :=
  (scanTiles (mapRow map width c) width 0).map
    (fun sm => ⟨(c : Int), (sm.1 : Int), (sm.2 : Int), map.drop (c * width)⟩)

/-- Band node construction (lines 580-618): colors are scanned in ascending
order and every discovered node is inserted at the front of the node list,
so the final list is the reversed discovery order prepended to the previous
nodes; the drain loop pops from the back, retrieving discovery order. -/
def buildBandNodes (map : List Nat) (width ncolors : Nat) (nodes : List SixelNode) :
    List SixelNode :=
  ((List.range ncolors).map (nodesOfColor map width)).flatten.reverse ++ nodes

/-- Vec::resize of the node map: truncate or pad with `v` to length `n`. -/
def resizeList (l : List Nat) (n : Nat) (v : Nat) : List Nat :=
  l.take n ++ List.replicate (n - l.length) v

/-- The fill step of the size-policy path (lines 634-641 and 653-661):
resize the node's map to `mx` and overwrite columns `sx..mx` with the full
bit pattern `(1 << i) - 1`. -/
def fillNode (np : SixelNode) (i : Nat) : SixelNode :=
  { np with
      map := (resizeList np.map np.mx.toNat ((1 <<< i) - 1)).mapIdx
        (fun j w => if np.sx.toNat ≤ j ∧ j < np.mx.toNat then (1 <<< i) - 1 else w) }

/-- Inner rescan of the drain loop (lines 644-665): walk the remaining
nodes from the top index down, rendering - without a carriage return - every
node whose start column is at or beyond the cursor, and removing it.  The
index stays in range (it starts at `len - 1` and only decreases while
removals happen at the current index), so `getD` models `nodes[ni]`. -/
def drainInner (st : SixelOutput) (x : Int) (nodes : List SixelNode) (ni : Int)
    (ncolors keycolor : Int) (i : Nat) (fillable : Bool) :
    SixelOutput × Int × List SixelNode :=
  if 0 ≤ ni then
    let onode := nodes.getD ni.toNat default
    if onode.sx < x then
      drainInner st x nodes (ni - 1) ncolors keycolor i fillable
    else
      let np := if fillable then fillNode onode i else onode
      let nodes := nodes.eraseIdx ni.toNat
      let p := put_node st x np ncolors keycolor
      drainInner p.1 p.2 nodes (ni - 1) ncolors keycolor i fillable
  else (st, x, nodes)
termination_by (ni + 1).toNat
decreasing_by
  · omega
  · omega

theorem drainInner_length (ncolors keycolor : Int) (i : Nat) (fillable : Bool) :
    ∀ (k : Nat) (st : SixelOutput) (x : Int) (nodes : List SixelNode) (ni : Int),
      (ni + 1).toNat = k →
      (drainInner st x nodes ni ncolors keycolor i fillable).2.2.length ≤ nodes.length := by
  intro k
  induction k using Nat.strong_induction_on with
  | _ k ih =>
    intro st x nodes ni hk
    rw [drainInner]
    by_cases h0 : 0 ≤ ni
    · rw [if_pos h0]
      by_cases hsx : (nodes.getD ni.toNat default).sx < x
      · rw [if_pos hsx]
        exact ih (ni - 1 + 1).toNat (by omega) st x nodes (ni - 1) rfl
      · rw [if_neg hsx]
        calc (drainInner _ _ (nodes.eraseIdx ni.toNat) (ni - 1) ncolors keycolor i
                fillable).2.2.length
            ≤ (nodes.eraseIdx ni.toNat).length :=
              ih (ni - 1 + 1).toNat (by omega) _ _ _ (ni - 1) rfl
          _ ≤ nodes.length := nodes.length_eraseIdx_le ni.toNat
    · rw [if_neg h0]

/-- Outer drain loop of the band emission (lines 626-668): pop nodes from
the back of the list; when the cursor has passed the node's start emit a
carriage return and reset the cursor, render the node, then greedily render
all remaining nodes reachable without a carriage return via the inner
rescan.  `fillable` is cleared after the first iteration. -/
def drainLoop (st : SixelOutput) (x : Int) (nodes : List SixelNode)
    (ncolors keycolor : Int) (i : Nat) (fillable : Bool) : SixelOutput :=
  match hnp : nodes.getLast? with
  | none => st
  | some np =>
    let rest := nodes.dropLast
    let sx0 := if x > np.sx then (putc st '$', (0 : Int)) else (st, x)
    let np := if fillable then fillNode np i else np
    let p := put_node sx0.1 sx0.2 np ncolors keycolor
    let q := drainInner p.1 p.2 rest ((rest.length : Int) - 1) ncolors keycolor i fillable
    drainLoop q.1 q.2.1 q.2.2 ncolors keycolor i false
termination_by nodes.length
decreasing_by
  have h2 : nodes.dropLast.length < nodes.length := by
    have hne : nodes ≠ [] := by
      intro he
      rw [he] at hnp
      exact absurd hnp (by simp)
    have : 0 < nodes.length := List.length_pos.mpr hne
    simp only [List.length_dropLast]
    omega
  exact lt_of_le_of_lt (drainInner_length ncolors keycolor i fillable _ _ _ _ _ rfl) h2

/-- One row of the map-building phase of `encode_body` (the `x` loop, lines
537-574): for each column, guard the row offset `y * width + x` and - when
the pixel is a usable color index - the map offset `pix * width + x` against
`i32::MAX`, then OR the row's bit into the color's bit-plane map.  A pixel
outside the palette (or equal to `keycolor`) clears `fillable` when no
per-slot palette state was passed. -/
def bodyRow (pixels : List Nat) (width ncolors : Nat) (keycolor : Int) (palSome : Bool)
    (y i : Nat) (x : Nat) (map : List Nat) (fillable : Bool) :
    Except Failure (List Nat × Bool) :=
  if x < width then
    if y > i32Max / width then .error (.error .BadIntegerOverflow)
    else if y * width > i32Max - x then .error (.error .BadIntegerOverflow)
    else
      match listGet pixels (y * width + x) with
      | .error e => .error e
      | .ok pix =>
        if pix < ncolors ∧ (pix : Int) ≠ keycolor then
          if pix > i32Max / width then .error (.error .BadIntegerOverflow)
          else if pix * width > i32Max - x then .error (.error .BadIntegerOverflow)
          else
            match listGet map (pix * width + x) with
            | .error e => .error e
            | .ok old =>
              match listSet map (pix * width + x) (old ||| (1 <<< i)) with
              | .error e => .error e
              | .ok map =>
                bodyRow pixels width ncolors keycolor palSome y i (x + 1) map fillable
        else
          bodyRow pixels width ncolors keycolor palSome y i (x + 1) map
            (if palSome then fillable else false)
  else .ok (map, fillable)
termination_by width - x

/-- The row loop of `encode_body` (the `y` loop, lines 526-673): initialize
`fillable` per the encode policy, build the band map row by row, and every
six rows - or at the last row - build the band's nodes, emit the
graphics-next-line directive when `y ≠ 5`, and drain the nodes. -/
def bodyLoop (pixels : List Nat) (width height ncolors : Nat) (keycolor : Int)
    (palSome : Bool) (y i : Nat) (map : List Nat) (st : SixelOutput) :
    Except Failure SixelOutput :=
  if y < height then
    match (if st.encode_policy ≠ EncodePolicy.Size then (.ok false : Except Failure Bool)
           else if palSome then
             match listGet pixels ((y - i) * width) with
             | .ok pix => .ok (decide (ncolors ≤ pix))
             | .error e => .error e
           else .ok true) with
    | .error e => .error e
    | .ok fillable =>
      match bodyRow pixels width ncolors keycolor palSome y i 0 map fillable with
      | .error e => .error e
      | .ok mf =>
        if i + 1 < 6 ∧ y + 1 < height then
          bodyLoop pixels width height ncolors keycolor palSome (y + 1) (i + 1) mf.1 st
        else
          let nodes := buildBandNodes mf.1 width ncolors st.nodes
          let st := { st with nodes := [] }
          let st := if y ≠ 5 then putc st '-' else st
          let st := drainLoop st 0 nodes ncolors keycolor (i + 1) mf.2
          bodyLoop pixels width height ncolors keycolor palSome (y + 1) 0
            (List.replicate (ncolors * width) 0) st
  else .ok st
termination_by height - y

/-- The source's `SixelOutput::encode_body` (lines 492-680): reject an empty
palette, reset the active palette, emit the palette definitions (unless
`bodyonly`, or suppressed by a two-color keyed palette), run the row loop,
and append the high-color carriage return when per-slot state was passed. -/
def encode_body (st : SixelOutput) (pixels : List Nat) (width height : Nat)
    (palette : List Nat) (ncolors : Nat) (keycolor : Int) (bodyonly : Bool)
    (palstate : Option (List Int)) : Except Failure SixelOutput :=
  if palette.isEmpty then .error (.error .BadArgument)
  else
    let st := { st with active_palette := -1 }
    let map : List Nat := List.replicate (ncolors * width) 0
    match (if ¬ bodyonly ∧ (ncolors ≠ 2 ∨ keycolor = -1) then
            if st.palette_type = PaletteType.Hls then
              (List.range ncolors).foldlM
                (fun st n => output_hls_palette_definition st palette (n : Int) keycolor) st
            else
              (List.range ncolors).foldlM
                (fun st n => output_rgb_palette_definition st palette (n : Int) keycolor) st
          else .ok st) with
    | .error e => .error e
    | .ok st =>
      match bodyLoop pixels width height ncolors keycolor palstate.isSome 0 0 map st with
      | .error e => .error e
      | .ok st => .ok (if palstate.isSome then putc st '$' else st)

/-- The source's `encode_header` (lines 342-400): emit the DCS introducer
(unless skipped), the `q` final character, and the raster attributes
`"1;1;width;height`.  The parameter block `p = [0, 0, 0]` always reduces
`pcount` to 0, so no `Pn` parameters are ever printed. -/
def encode_header (st : SixelOutput) (width height : Int) : SixelOutput :=
  let st :=
    if ¬ st.skip_dcs_envelope then
      if st.has_8bit_control then puts st DCS_START_8BIT else puts st DCS_START_7BIT
    else st
  let st := putc st 'q'
  let st := puts st ['"', '1', ';', '1', ';']
  let st := puti st width
  let st := putc st ';'
  let st := puti st height
  st

/-- The source's `encode_footer` (lines 683-704), at the level of the
emitted text: append the DCS terminator unless the envelope is skipped or
multiplexer penetration re-wraps the stream.  The physical flush of the
buffer to the sink (including the penetration path's packetization and its
trailing `ESC \` write) belongs to the packet layer modelled separately. -/
def encode_footer (st : SixelOutput) : SixelOutput :=
  if ¬ st.skip_dcs_envelope ∧ ¬ st.penetrate_multiplexer then
    if st.has_8bit_control then puts st DCS_END_8BIT else puts st DCS_END_7BIT
  else st

/-- Modelled from the spec: the dither configuration consumed by the
encoder; `dither.rs` is not part of the visible source, so only the fields
that `output/mod.rs` reads or writes are modelled. -/
structure DitherConf where
  palette : List Nat
  ncolors : Nat
  keycolor : Int
  bodyonly : Bool
  pixelformat : PixelFormat
  method_for_diffuse : MethodForDiffuse
  quality_mode : Quality
  deriving DecidableEq, Repr

/-- Guarded read of a `Vec<bool>` (panics out of range). -/
def listGetB (l : List Bool) (i : Nat) : Except Failure Bool :=
  match l.get? i with
  | some v => .ok v
  | none => .error .panic

/-- Guarded write of a `Vec<bool>` (panics out of range). -/
def listSetB (l : List Bool) (i : Nat) (v : Bool) : Except Failure (List Bool) :=
  if i < l.length then .ok (l.set i v) else .error .panic

/-- Guarded read of a `Vec<i32>` (panics out of range). -/
def listGetI (l : List Int) (i : Nat) : Except Failure Int :=
  match l.get? i with
  | some v => .ok v
  | none => .error .panic

/-- Guarded write of a `Vec<i32>` (panics out of range). -/
def listSetI (l : List Int) (i : Nat) (v : Int) : Except Failure (List Int) :=
  if i < l.length then .ok (l.set i v) else .error .panic

/-- The source's `encode_dither` (lines 707-754): normalize sub-8-bit
paletted and grayscale formats through the external normalization
collaborator, take 8-bit layouts as they are, route everything else through
`apply_palette`, then emit header, single-pass body, and footer. -/
def encode_dither
    (normalizeFn : List Nat → PixelFormat → Int → Int →
      Except SixelError (List Nat × PixelFormat))
    (applyPaletteFn : DitherConf → List Nat → Int → Int → Except SixelError (List Nat))
    (st : SixelOutput) (pixels : List Nat) (width height : Int) (dither : DitherConf) :
    Except Failure (SixelOutput × DitherConf) :=
  match (match dither.pixelformat with
         | .PAL1 | .PAL2 | .PAL4 | .G1 | .G2 | .G4 =>
           match normalizeFn pixels dither.pixelformat width height with
           | .ok pf => .ok (pf.1, { dither with pixelformat := pf.2 })
           | .error e => .error (Failure.error e)
         | .PAL8 | .G8 | .GA88 | .AG88 => .ok (pixels, dither)
         | _ =>
           match applyPaletteFn dither pixels width height with
           | .ok px => .ok (px, dither)
           | .error e => .error (Failure.error e) :
        Except Failure (List Nat × DitherConf)) with
  | .error e => .error e
  | .ok (input_pixels, dither) =>
    let st := encode_header st width height
    match encode_body st input_pixels width.toNat height.toNat dither.palette
        dither.ncolors dither.keycolor dither.bodyonly none with
    | .error e => .error e
    | .ok st => .ok (encode_footer st, dither)

/-- State of the high-color adaptive encoder (local variables of
`encode_highcolor`, lines 764-801).  The 2^15-entry hit tables `rgbhit` and
`rgb2pal` are modelled as total maps since every index is a 15-bit quantized
color; the remaining vectors keep their guarded list representation. -/
structure HCState where
  pixels : List Nat
  px_idx : Nat
  paletted : List Nat
  dst : Nat
  rgbhit : Nat → Nat
  rgb2pal : Nat → Nat
  nextpal : Nat
  threshold : Int
  dirty : Bool
  mptr : Nat
  marks : List Bool
  palstate : List Int
  palhitcount : List Int
  palette : List Nat
  output_count : Nat

/-- Observable events of the high-color encoder: each call of the
body-rendering path (with the number of rows passed to it and the dirty
flag at that moment), and each rewind of the pixel cursor. -/
inductive HCEvent
  | flush (rows : Nat) (dirty : Bool)
  | rewind
  deriving DecidableEq, Repr

/-- Slot-search loop of the high-color encoder (lines 821-835): find the
next local palette slot that is neither touched this pass nor hotter than
the escalating threshold (1, then 9, then 255); when all 255 slots are
exhausted even at the maximal threshold, give up with `nextpal ≥ 255`. -/
def hcFindSlot (palstate palhitcount : List Int) (nextpal : Nat) (threshold : Int) :
    Nat × Int :=
  if 255 ≤ nextpal then
    if 255 ≤ threshold then (nextpal, threshold)
    else hcFindSlot palstate palhitcount 0 (if threshold = 1 then 9 else 255)
  else if palstate.getD nextpal 0 ≠ 0 ∨ threshold < palhitcount.getD nextpal 0 then
    hcFindSlot palstate palhitcount (nextpal + 1) threshold
  else (nextpal, threshold)
termination_by
  (if threshold = 1 then 2 else if threshold < 255 then 1 else 0) * 256 +
    (255 - min nextpal 255)
decreasing_by
  · by_cases h1 : threshold = 1
    · subst h1
      norm_num
      omega
    · rw [if_neg h1, dif_neg h1]
      rw [if_neg (show ¬ (255 : Int) = 1 by norm_num),
        if_neg (show ¬ (255 : Int) < 255 by norm_num),
        if_pos (show threshold < 255 by omega)]
      omega
  · omega

/-- The 15-bit quantization of an RGB triple, as computed at lines 816-818:
five high bits of each channel packed into bits 14-10, 9-5, 4-0. -/
def quant15 (r g b : Nat) : Nat :=
  ((r &&& 0xf8) <<< 7) ||| ((g &&& 0xf8) <<< 2) ||| ((b >>> 3) &&& 0x1f)

/-- One pixel of the high-color scanning loop (lines 805-876): skip marked
positions; otherwise apply the diffusion collaborator in place, quantize,
and either reuse the color's slot (bumping its saturating hit count), claim
a fresh or evictable slot (recording the color in the mutable palette), or
mark the pixel unresolved and set the dirty flag when no slot is available. -/
def hcStep
    (diffuseFn : List Nat → Int → Int → Int → Int → MethodForDiffuse → List Nat)
    (method : MethodForDiffuse) (width height : Nat) (x y : Nat) (s : HCState) :
    Except Failure HCState := do
  let mk ← listGetB s.marks s.mptr
  if mk then do
    let paletted ← listSet s.paletted s.dst 255
    pure { s with paletted := paletted,
                  mptr := s.mptr + 1, dst := s.dst + 1, px_idx := s.px_idx + 3 }
  else do
    let pixels := s.pixels.take s.px_idx ++
      diffuseFn (s.pixels.drop s.px_idx) (x : Int) (y : Int) (width : Int) (height : Int)
        method
    let r ← listGet pixels s.px_idx
    let g ← listGet pixels (s.px_idx + 1)
    let b ← listGet pixels (s.px_idx + 2)
    let pix := quant15 r g b
    if s.rgbhit pix = 0 then
      let fs := hcFindSlot s.palstate s.palhitcount s.nextpal s.threshold
      if 255 ≤ fs.1 then do
        let paletted ← listSet s.paletted s.dst 255
        pure { s with pixels := pixels, paletted := paletted, dirty := true,
                      nextpal := fs.1, threshold := fs.2,
                      mptr := s.mptr + 1, dst := s.dst + 1, px_idx := s.px_idx + 3 }
      else do
        let pal := fs.1 * 3
        let rgbhit := Function.update s.rgbhit pix 1
        let rgbhit ←
          if 0 < s.output_count then do
            let pr ← listGet s.palette pal
            let pg ← listGet s.palette (pal + 1)
            let pb ← listGet s.palette (pal + 2)
            pure (Function.update rgbhit (quant15 pr pg pb) 0)
          else pure rgbhit
        let paletted ← listSet s.paletted s.dst fs.1
        let rgb2pal := Function.update s.rgb2pal pix fs.1
        let marks ← listSetB s.marks s.mptr true
        let palstate ← listSetI s.palstate fs.1 PALETTE_CHANGE
        let palhitcount ← listSetI s.palhitcount fs.1 1
        let palette ← listSet s.palette pal r
        let palette ← listSet palette (pal + 1) g
        let palette ← listSet palette (pal + 2) b
        pure { s with pixels := pixels, rgbhit := rgbhit, rgb2pal := rgb2pal,
                      paletted := paletted, marks := marks, palstate := palstate,
                      palhitcount := palhitcount, palette := palette,
                      nextpal := fs.1 + 1, threshold := fs.2,
                      mptr := s.mptr + 1, dst := s.dst + 1, px_idx := s.px_idx + 3 }
    else do
      let pp := s.rgb2pal pix
      let paletted ← listSet s.paletted s.dst pp
      let marks ← listSetB s.marks s.mptr true
      let ps ← listGetI s.palstate pp
      let palstate ←
        if ps ≠ 0 then listSetI s.palstate pp PALETTE_HIT else pure s.palstate
      let hc ← listGetI s.palhitcount pp
      let palhitcount ←
        if hc < 255 then listSetI s.palhitcount pp (hc + 1) else pure s.palhitcount
      pure { s with pixels := pixels, paletted := paletted, marks := marks,
                    palstate := palstate, palhitcount := palhitcount,
                    mptr := s.mptr + 1, dst := s.dst + 1, px_idx := s.px_idx + 3 }

/-- One row of the high-color scanning loop (the `for x in 0..width` of
line 804). -/
def hcRow
    (diffuseFn : List Nat → Int → Int → Int → Int → MethodForDiffuse → List Nat)
    (method : MethodForDiffuse) (width height : Nat) (y : Nat) (x : Nat) (s : HCState) :
    Except Failure HCState :=
  if x < width then
    match hcStep diffuseFn method width height x y s with
    | .error e => .error e
    | .ok s => hcRow diffuseFn method width height y (x + 1) s
  else .ok s
termination_by width - x

/-- The row-and-flush loop of one high-color pass (lines 803-923): process
rows until either the image is exhausted with a clean band (stop), or a
dirty band boundary forces a flush of the rows scanned so far through
`encode_body` - rewinding the pixel cursor by the six-row band and
restarting with the remaining rows when the image is not yet finished.
Returns the output state, the scan state, the (possibly adjusted) height,
the event log, and whether the outer loop continues. -/
def hcRows
    (diffuseFn : List Nat → Int → Int → Int → Int → MethodForDiffuse → List Nat)
    (method : MethodForDiffuse) (bodyonly : Bool) (ncolors : Nat) (width : Nat)
    (st : SixelOutput) (s : HCState) (height : Nat) (y mod_y : Nat)
    (events : List HCEvent) :
    Except Failure (SixelOutput × HCState × Nat × List HCEvent × Bool) :=
  if hY : y < height then
    match hcRow diffuseFn method width height y 0 s with
    | .error e => .error e
    | .ok s =>
      if hStop : height ≤ y + 1 ∧ s.dirty = false then
        .ok (st, s, height, events, false)
      else
        if hFlush : s.dirty = true ∧
            ((if height ≤ y + 1 then 5 else mod_y) = 5 ∨ height ≤ y + 1) then
          let orig_height := height
          let st := if s.output_count = 0 then
              encode_header st (width : Int) (height : Int)
            else st
          let s := { s with output_count := s.output_count + 1 }
          let height := y + 1
          match encode_body st s.paletted width height s.palette ncolors 255 bodyonly
              (some s.palstate) with
          | .error e => .error e
          | .ok st =>
            let events := events ++ [HCEvent.flush height s.dirty]
            if orig_height ≤ y + 1 then
              .ok (st, s, height, events, false)
            else
              let s := { s with px_idx := s.px_idx - 6 * width * 3 }
              .ok (st, s, orig_height - height + 6, events ++ [HCEvent.rewind], true)
        else
          let smy :=
            if mod_y + 1 = 6 then
              ({ s with marks := List.replicate 32768 false, mptr := 0 }, 0)
            else (s, mod_y + 1)
          hcRows diffuseFn method bodyonly ncolors width st smy.1 height (y + 1) smy.2
            events
  else .ok (st, s, height, events, false)
termination_by height - y
decreasing_by
  by_cases hy1 : height ≤ y + 1
  · exfalso
    rcases not_and_or.mp hStop with h | h
    · exact h hy1
    · exact hFlush ⟨by simpa using h, Or.inr hy1⟩
  · omega

/-- The outer `while is_running` of the high-color encoder (lines 790-924),
with an explicit iteration budget: the source does not bound the number of
rewind passes, so the model runs out of `fuel` where the source would keep
looping.  Each pass resets the per-pass assignment state (lines 791-801). -/
def hcLoop
    (diffuseFn : List Nat → Int → Int → Int → Int → MethodForDiffuse → List Nat)
    (method : MethodForDiffuse) (bodyonly : Bool) (ncolors : Nat) (width : Nat)
    (fuel : Nat) (st : SixelOutput) (s : HCState) (height : Nat)
    (events : List HCEvent) :
    Except Failure (SixelOutput × HCState × Nat × List HCEvent) :=
  match fuel with
  | 0 => .error .fuelOut
  | fuel + 1 =>
    let s := { s with
        dst := 0, nextpal := 0, threshold := 1, dirty := false, mptr := 0,
        marks := List.replicate (width * 6) false,
        palstate := List.replicate SIXEL_PALETTE_MAX 0 }
    match hcRows diffuseFn method bodyonly ncolors width st s height 0 0 events with
    | .error e => .error e
    | .ok (st, s, height, events, is_running) =>
      if is_running then
        hcLoop diffuseFn method bodyonly ncolors width fuel st s height events
      else .ok (st, s, height, events)

/-- The source's `encode_highcolor` (lines 757-943): normalize to BGR888 if
needed, run the adaptive scanning loop, then emit the header if nothing was
flushed yet and render the accumulated paletted pixels through
`encode_body`, whose structured errors - and the footer's - are discarded
(`let _ = ...`); panics still propagate.  Returns the event log of body
flushes and rewinds alongside the output. -/
def encode_highcolor
    (normalizeFn : List Nat → PixelFormat → Int → Int →
      Except SixelError (List Nat × PixelFormat))
    (diffuseFn : List Nat → Int → Int → Int → Int → MethodForDiffuse → List Nat)
    (fuel : Nat) (st : SixelOutput) (pixels : List Nat) (width height : Int)
    (dither : DitherConf) :
    Except Failure (SixelOutput × DitherConf × List HCEvent) :=
  match (if dither.pixelformat ≠ PixelFormat.BGR888 then
          match normalizeFn pixels dither.pixelformat width height with
          | .ok pf => .ok pf.1
          | .error e => .error (Failure.error e)
        else .ok pixels : Except Failure (List Nat)) with
  | .error e => .error e
  | .ok pixels =>
    let wN := width.toNat
    let hN := height.toNat
    let s : HCState := {
      pixels := pixels, px_idx := 0,
      paletted := List.replicate (wN * hN) 0, dst := 0,
      rgbhit := fun _ => 0, rgb2pal := fun _ => 0,
      nextpal := 0, threshold := 1, dirty := false, mptr := 0,
      marks := List.replicate (wN * 6) false,
      palstate := List.replicate SIXEL_PALETTE_MAX 0,
      palhitcount := List.replicate SIXEL_PALETTE_MAX 0,
      palette := dither.palette, output_count := 0 }
    match hcLoop diffuseFn dither.method_for_diffuse dither.bodyonly dither.ncolors wN
        fuel st s hN [] with
    | .error e => .error e
    | .ok (st, s, height2, events) =>
      let st := if s.output_count = 0 then encode_header st width (height2 : Int) else st
      let events := events ++ [HCEvent.flush height2 s.dirty]
      match encode_body st s.paletted wN height2 s.palette dither.ncolors 255
          dither.bodyonly (some s.palstate) with
      | .ok st2 => .ok (encode_footer st2, { dither with palette := s.palette }, events)
      | .error .panic => .error .panic
      | .error _ => .ok (encode_footer st, { dither with palette := s.palette }, events)

/-- The source's `SixelOutput::encode` (lines 946-1002): validate the
dimensions, then dispatch on the quality mode; the color-depth parameter is
accepted and never used (`_depth` in the source). -/
def encode
    (normalizeFn : List Nat → PixelFormat → Int → Int →
      Except SixelError (List Nat × PixelFormat))
    (applyPaletteFn : DitherConf → List Nat → Int → Int → Except SixelError (List Nat))
    (diffuseFn : List Nat → Int → Int → Int → Int → MethodForDiffuse → List Nat)
    (fuel : Nat) (st : SixelOutput) (pixels : List Nat) (width height : Int)
    (_depth : Int) (dither : DitherConf) : Except Failure (SixelOutput × DitherConf) :=
  if width < 1 then .error (.error .BadInput)
  else if height < 1 then .error (.error .BadInput)
  else
    match dither.quality_mode with
    | .Auto | .High | .Low | .Full =>
      encode_dither normalizeFn applyPaletteFn st pixels width height dither
    | .HighColor =>
      match encode_highcolor normalizeFn diffuseFn fuel st pixels width height dither with
      | .ok r => .ok (r.1, r.2.1)
      | .error e => .error e

/-- C10: the color-depth parameter of `encode` is accepted and never used
(`_depth` in the source), so any two depth values give identical results -
the same error or the same output state and dither configuration - for
every input, configuration, and set of collaborator functions. -/
theorem claim10_depth_unused
    (normalizeFn : List Nat → PixelFormat → Int → Int →
      Except SixelError (List Nat × PixelFormat))
    (applyPaletteFn : DitherConf → List Nat → Int → Int → Except SixelError (List Nat))
    (diffuseFn : List Nat → Int → Int → Int → Int → MethodForDiffuse → List Nat)
    (fuel : Nat) (st : SixelOutput) (pixels : List Nat) (width height : Int)
    (d1 d2 : Int) (dither : DitherConf) :
    encode normalizeFn applyPaletteFn diffuseFn fuel st pixels width height d1 dither =
      encode normalizeFn applyPaletteFn diffuseFn fuel st pixels width height d2 dither :=
  rfl

/-- C6: the envelope constants and `encode_header` at a 1-by-1 image.  The
7-bit introducer is ESC `P` and the raster attribute substring `"1;1;1;1`
follows, as claimed; but in 8-bit mode the source emits the Unicode scalar
`U+0220` (octal 220 = 0x90 misread as hex when porting the C escape
`"\220"`), which is not a C1 control byte (U+0080-U+009F), and likewise
`U+0234` instead of the C1 string terminator for the footer. -/
theorem claim6_envelope_start_bug :
    (encode_header { SixelOutput.new with has_8bit_control := true } 1 1).buffer.head? =
        some (Char.ofNat 544) ∧
    ¬ (128 ≤ (Char.ofNat 544).toNat ∧ (Char.ofNat 544).toNat ≤ 159) ∧
    (encode_header SixelOutput.new 1 1).buffer.take 2 = DCS_START_7BIT ∧
    ['"', '1', ';', '1', ';', '1', ';', '1'] <:+: (encode_header SixelOutput.new 1 1).buffer ∧
    (encode_footer SixelOutput.new).buffer = DCS_END_7BIT ∧
    (encode_footer { SixelOutput.new with has_8bit_control := true }).buffer =
        DCS_END_8BIT ∧
    ¬ (128 ≤ (Char.ofNat 564).toNat ∧ (Char.ofNat 564).toNat ≤ 159) := by
  have h1 : natDigits 1 = ['1'] := by
    rw [natDigits]
    norm_num
    decide
  have hh : ∀ b : Bool, (encode_header { SixelOutput.new with has_8bit_control := b } 1 1).buffer =
      (if b then DCS_START_8BIT else DCS_START_7BIT) ++
        ['q', '"', '1', ';', '1', ';', '1', ';', '1'] := by
    intro b
    cases b <;>
      simp [encode_header, puts, putc, puti, intChars, h1, SixelOutput.new,
        DCS_START_7BIT, DCS_START_8BIT]
  have hh7 : (encode_header SixelOutput.new 1 1).buffer =
      (if false then DCS_START_8BIT else DCS_START_7BIT) ++
        ['q', '"', '1', ';', '1', ';', '1', ';', '1'] := hh false
  refine ⟨?_, by decide, ?_, ?_, ?_, ?_, by decide⟩
  · rw [hh true]
    rfl
  · rw [hh7]
    rfl
  · rw [hh7]
    decide
  · simp [encode_footer, puts, SixelOutput.new]
  · simp [encode_footer, puts, SixelOutput.new]

set_option maxRecDepth 2048 in
/-- The source's `penetrate` (lines 202-216), specialized - as at both of
its call sites - to the 7-bit DCS envelopes, so the split size is
`SCREEN_PACKET_SIZE - 2 - 2 = 252`.  Each loop iteration performs three
physical writes: DCS start, a 252-byte chunk, DCS end.  The chunk slice
`buffer[pos..pos+splitsize]` clips neither at `nwrite` nor at the buffer's
end; slicing past the end of the buffer is a Rust panic. -/
def penetrate (buffer : List Char) (nwrite : Nat) (pos : Nat) :
    Except Failure (List (List Char)) :=
  if pos < nwrite then
    if pos + 252 ≤ buffer.length then
      (penetrate buffer nwrite (pos + 252)).map
        (fun ws => [DCS_START_7BIT, (buffer.drop pos).take 252, DCS_END_7BIT] ++ ws)
    else .error .panic
  else .ok []
termination_by nwrite - pos

/-- The source's `advance` (lines 221-231) at the packet level: when the
accumulated buffer holds at least `PACKET_SIZE` bytes, flush one
`PACKET_SIZE` chunk - via `penetrate` when multiplexer penetration is on,
as a single plain write otherwise - and drop exactly `PACKET_SIZE` bytes
from the buffer.  Returns the physical writes and the remaining buffer. -/
def advancePackets (buffer : List Char) (penetrate_mux : Bool) :
    Except Failure (List (List Char) × List Char) :=
  if PACKET_SIZE ≤ buffer.length then
    if penetrate_mux then
      match penetrate buffer PACKET_SIZE 0 with
      | .ok ws => .ok (ws, buffer.drop PACKET_SIZE)
      | .error e => .error e
    else .ok ([buffer.take PACKET_SIZE], buffer.drop PACKET_SIZE)
  else .ok ([], buffer)

/-- The write sequence `penetrate` produces for `m` chunks starting at
`pos`: per chunk, the DCS introducer, 252 buffer bytes, and the DCS
terminator. -/
def penetrateWrites (buffer : List Char) (pos : Nat) : Nat → List (List Char)
  | 0 => []
  | m + 1 =>
    [DCS_START_7BIT, (buffer.drop pos).take 252, DCS_END_7BIT] ++
      penetrateWrites buffer (pos + 252) m

theorem penetrate_spec (buffer : List Char) (nwrite : Nat) :
    ∀ (m pos : Nat), (nwrite - pos + 251) / 252 = m → pos + m * 252 ≤ buffer.length →
      penetrate buffer nwrite pos = .ok (penetrateWrites buffer pos m) := by
  intro m
  induction m with
  | zero =>
    intro pos hm _
    rw [penetrate, if_neg (by omega), penetrateWrites]
  | succ k ih =>
    intro pos hm hlen
    rw [penetrate, if_pos (by omega), if_pos (by omega),
      ih (pos + 252) (by omega) (by omega), penetrateWrites]
    rfl

/-- C9 counterexample: the claim says the penetration flush is total and
never reads past the buffered data.  Flushing a two-byte buffer (as
`encode_footer` does, passing `nwrite = buffer.len()`) slices
`buffer[0..252]` on a buffer of length 2, an out-of-range slice: a panic,
not a total flush. -/
theorem claim9_packet_framing_counterexample :
    penetrate ['A', 'B'] (['A', 'B'] : List Char).length 0 = .error .panic := by
  rw [penetrate]
  norm_num

/-- C9 (amended): with multiplexer penetration enabled, a flush of `nwrite`
bytes performs `m = ⌈nwrite/252⌉` packets of three writes each (DCS start,
252 data bytes, DCS end - 256 bytes per packet including the envelope), and
reads `m * 252` bytes from the buffer, which can exceed `nwrite`: the flush
is total only when the buffer holds at least `m * 252` bytes, and it
panics otherwise.  With penetration disabled, `advance` flushes one plain
`PACKET_SIZE = 16384`-byte chunk whenever the buffer holds that much. -/
theorem claim9_packet_framing_amended (buffer : List Char) (nwrite m : Nat)
    (hm : (nwrite + 251) / 252 = m) (hlen : m * 252 ≤ buffer.length) :
    penetrate buffer nwrite 0 = .ok (penetrateWrites buffer 0 m) ∧
    nwrite ≤ m * 252 ∧
    (∀ pos k, pos + k * 252 ≤ buffer.length →
      (penetrateWrites buffer pos k).length = 3 * k ∧
      ∀ w ∈ penetrateWrites buffer pos k, w.length ≤ 252) ∧
    (∀ j, j < m →
      DCS_START_7BIT.length + ((buffer.drop (j * 252)).take 252).length +
        DCS_END_7BIT.length = 256) ∧
    (PACKET_SIZE ≤ buffer.length →
      advancePackets buffer false =
        .ok ([buffer.take PACKET_SIZE], buffer.drop PACKET_SIZE)) := by
  refine ⟨penetrate_spec buffer nwrite m 0 (by omega) (by omega), by omega, ?_, ?_, ?_⟩
  · intro pos k
    induction k generalizing pos with
    | zero => intro _; exact ⟨rfl, by intro w hw; exact absurd hw (List.not_mem_nil w)⟩
    | succ n ih =>
      intro hlen2
      obtain ⟨h1, h2⟩ := ih (pos + 252) (by omega)
      refine ⟨by rw [penetrateWrites]; simp [h1]; ring, ?_⟩
      intro w hw
      rw [penetrateWrites] at hw
      rcases List.mem_append.mp hw with h | h
      · simp only [List.mem_cons, List.not_mem_nil, or_false] at h
        rcases h with h | h | h
        · rw [h, DCS_START_7BIT]
          norm_num
        · rw [h]
          simp
        · rw [h, DCS_END_7BIT]
          norm_num
      · exact h2 w h
  · intro j hj
    rw [DCS_START_7BIT, DCS_END_7BIT]
    have : ((buffer.drop (j * 252)).take 252).length = 252 := by
      simp only [List.length_take, List.length_drop]
      omega
    rw [this]
    decide
  · intro hp
    rw [advancePackets, if_pos hp, if_neg (by simp)]

/-- C9 witness: the amended packet-framing law applied to a 504-byte buffer
flushed with `nwrite = 260`, which produces two 256-byte packets. -/
theorem claim9_packet_framing_witness :
    (260 + 251) / 252 = 2 ∧ 2 * 252 ≤ (List.replicate 504 'A').length ∧
    (penetrate (List.replicate 504 'A') 260 0 =
        .ok (penetrateWrites (List.replicate 504 'A') 0 2) ∧
      260 ≤ 2 * 252 ∧
      (∀ pos k, pos + k * 252 ≤ (List.replicate 504 'A').length →
        (penetrateWrites (List.replicate 504 'A') pos k).length = 3 * k ∧
        ∀ w ∈ penetrateWrites (List.replicate 504 'A') pos k, w.length ≤ 252) ∧
      (∀ j, j < 2 →
        DCS_START_7BIT.length +
          (((List.replicate 504 'A').drop (j * 252)).take 252).length +
            DCS_END_7BIT.length = 256) ∧
      (PACKET_SIZE ≤ (List.replicate 504 'A').length →
        advancePackets (List.replicate 504 'A') false =
          .ok ([(List.replicate 504 'A').take PACKET_SIZE],
            (List.replicate 504 'A').drop PACKET_SIZE))) :=
  ⟨by norm_num, by rw [List.length_replicate],
    claim9_packet_framing_amended (List.replicate 504 'A') 260 2 (by norm_num)
      (by rw [List.length_replicate])⟩


/-- Trivial instantiation of the external normalization collaborator
(`pixelformat.rs` is not part of the visible source): pass the pixels
through unchanged. -/
def idNormalize : List Nat → PixelFormat → Int → Int →
    Except SixelError (List Nat × PixelFormat) :=
  fun px pf _ _ => .ok (px, pf)

/-- Trivial instantiation of the external `apply_palette` collaborator
(`dither.rs` is not part of the visible source): pass the pixels through. -/
def idApplyPalette : DitherConf → List Nat → Int → Int →
    Except SixelError (List Nat) :=
  fun _ px _ _ => .ok px

/-- Trivial instantiation of the external diffusion collaborator
(`output/dither_fns.rs` is not part of the visible source): no diffusion,
the in-place slice is left unchanged. -/
def idDiffuse : List Nat → Int → Int → Int → Int → MethodForDiffuse → List Nat :=
  fun px _ _ _ _ _ => px

/-- On fresh per-pass tables every slot is untouched, so the slot search
returns slot 0 at the initial threshold. -/
theorem hcFindSlot_fresh : hcFindSlot (List.replicate SIXEL_PALETTE_MAX 0)
    (List.replicate SIXEL_PALETTE_MAX 0) 0 1 = (0, 1) := by
  rw [hcFindSlot]
  norm_num [SIXEL_PALETTE_MAX]

/-- The scan state of the high-color encoder at the start of the first pass
over a 1-by-1 black BGR888 image when the dither configuration carries an
empty palette. -/
def hc1x1EmptyState : HCState := {
  pixels := [0, 0, 0], px_idx := 0,
  paletted := List.replicate (1 * 1) 0, dst := 0,
  rgbhit := fun _ => 0, rgb2pal := fun _ => 0,
  nextpal := 0, threshold := 1, dirty := false, mptr := 0,
  marks := List.replicate (1 * 6) false,
  palstate := List.replicate SIXEL_PALETTE_MAX 0,
  palhitcount := List.replicate SIXEL_PALETTE_MAX 0,
  palette := [], output_count := 0 }

set_option maxRecDepth 8192 in
/-- The first unmarked pixel claims palette slot 0 and the slot's color is
recorded with `dither.palette[pal] = ...` (line 855): on an empty palette
vector this write is out of range - a panic, not a structured error. -/
theorem hcStep_emptyPalette_panic (m : MethodForDiffuse) :
    hcStep idDiffuse m 1 1 0 0 hc1x1EmptyState = .error .panic := by
  simp only [hcStep, hc1x1EmptyState, hcFindSlot_fresh, idDiffuse]
  rfl

theorem hcRow_emptyPalette_panic (m : MethodForDiffuse) :
    hcRow idDiffuse m 1 1 0 0 hc1x1EmptyState = .error .panic := by
  rw [hcRow, if_pos (by norm_num), hcStep_emptyPalette_panic]

theorem hcRows_emptyPalette_panic (m : MethodForDiffuse) (b : Bool) (nc : Nat)
    (st : SixelOutput) (ev : List HCEvent) :
    hcRows idDiffuse m b nc 1 st hc1x1EmptyState 1 0 0 ev = .error .panic := by
  rw [hcRows, dif_pos (show (0 : Nat) < 1 by norm_num), hcRow_emptyPalette_panic]

theorem hcLoop_emptyPalette_panic (m : MethodForDiffuse) (b : Bool) (nc : Nat)
    (st : SixelOutput) (ev : List HCEvent) :
    hcLoop idDiffuse m b nc 1 1 st hc1x1EmptyState 1 ev = .error .panic := by
  rw [show (1 : Nat) = 0 + 1 from rfl]
  rw [hcLoop]
  have hEq : { hc1x1EmptyState with
      dst := 0, nextpal := 0, threshold := 1, dirty := false, mptr := 0,
      marks := List.replicate (1 * 6) false,
      palstate := List.replicate SIXEL_PALETTE_MAX 0 } = hc1x1EmptyState := rfl
  rw [hEq, hcRows_emptyPalette_panic]

/-- The dither configuration of the failing high-color run: empty palette,
BGR888 input, HighColor quality. -/
def hcEmptyDither : DitherConf := {
  palette := [], ncolors := 1, keycolor := -1, bodyonly := false,
  pixelformat := PixelFormat.BGR888, method_for_diffuse := MethodForDiffuse.None,
  quality_mode := Quality.HighColor }

theorem encode_highcolor_emptyPalette_panic :
    encode_highcolor idNormalize idDiffuse 1 SixelOutput.new
      [0, 0, 0] 1 1 hcEmptyDither = .error .panic := by
  rw [encode_highcolor]
  rw [if_neg (show ¬ (hcEmptyDither.pixelformat ≠ PixelFormat.BGR888) by decide)]
  have h1 : (1 : Int).toNat = 1 := rfl
  simp only [h1, hcEmptyDither]
  have hS :
      ({ pixels := [0, 0, 0],
         px_idx := 0,
         paletted := List.replicate (1 * 1) 0,
         dst := 0,
         rgbhit := fun _ => 0,
         rgb2pal := fun _ => 0,
         nextpal := 0,
         threshold := 1,
         dirty := false,
         mptr := 0,
         marks := List.replicate (1 * 6) false,
         palstate := List.replicate SIXEL_PALETTE_MAX 0,
         palhitcount := List.replicate SIXEL_PALETTE_MAX 0,
         palette := [],
         output_count := 0 } : HCState) = hc1x1EmptyState := rfl
  rw [hS, hcLoop_emptyPalette_panic]

/-- An empty palette is rejected by `encode_body` before anything else
happens (line 503). -/
theorem encode_body_emptyPalette (st : SixelOutput) (px : List Nat) (w h nc : Nat)
    (kc : Int) (b : Bool) (ps : Option (List Int)) :
    encode_body st px w h [] nc kc b ps = .error (.error .BadArgument) := rfl

/-- The four pass-through pixel formats reach `encode_body` directly, so the
single-pass dither path rejects an empty palette with `BadArgument`. -/
theorem encode_dither_emptyPalette
    (nf : List Nat → PixelFormat → Int → Int →
      Except SixelError (List Nat × PixelFormat))
    (af : DitherConf → List Nat → Int → Int → Except SixelError (List Nat))
    (st : SixelOutput) (px : List Nat) (w h : Int) (d : DitherConf)
    (hpal : d.palette = [])
    (hpf : d.pixelformat = PixelFormat.PAL8 ∨ d.pixelformat = PixelFormat.G8 ∨
      d.pixelformat = PixelFormat.GA88 ∨ d.pixelformat = PixelFormat.AG88) :
    encode_dither nf af st px w h d = .error (.error .BadArgument) := by
  have hbody : encode_body (encode_header st w h) px w.toNat h.toNat d.palette
      d.ncolors d.keycolor d.bodyonly none = .error (.error .BadArgument) := by
    rw [hpal]
    exact encode_body_emptyPalette _ _ _ _ _ _ _ _
  rcases hpf with hf|hf|hf|hf <;>
    (rw [encode_dither, hf]
     show (match encode_body (encode_header st w h) px w.toNat h.toNat d.palette
             d.ncolors d.keycolor d.bodyonly none with
           | Except.error e => Except.error e
           | Except.ok st2 => Except.ok (encode_footer st2, d) :
             Except Failure (SixelOutput × DitherConf)) = .error (.error .BadArgument)
     rw [hbody])

/-- C2: the dimension check holds in every quality mode, and the four
single-pass dither modes reject an empty palette with `BadArgument`; but in
`HighColor` mode an empty palette is not rejected - the first claimed
palette slot writes `dither.palette[pal]` out of range and the encoder
panics instead of returning the structured `BadArgument` error. -/
theorem claim2_error_contract :
    (∀ nf af df fuel st px (w h : Int) dep d, (w < 1 ∨ h < 1) →
      encode nf af df fuel st px w h dep d = .error (.error .BadInput)) ∧
    (∀ nf af df fuel st px (w h : Int) dep d, d.palette = [] →
      d.quality_mode ≠ Quality.HighColor →
      (d.pixelformat = PixelFormat.PAL8 ∨ d.pixelformat = PixelFormat.G8 ∨
       d.pixelformat = PixelFormat.GA88 ∨ d.pixelformat = PixelFormat.AG88) →
      1 ≤ w → 1 ≤ h →
      encode nf af df fuel st px w h dep d = .error (.error .BadArgument)) ∧
    encode idNormalize idApplyPalette idDiffuse 1 SixelOutput.new [0, 0, 0] 1 1 0
      hcEmptyDither = .error .panic := by
  refine ⟨?_, ?_, ?_⟩
  · intro nf af df fuel st px w h dep d hwh
    rw [encode]
    by_cases hw : w < 1
    · rw [if_pos hw]
    · rcases hwh with h1 | h1
      · exact absurd h1 hw
      · rw [if_neg hw, if_pos h1]
  · intro nf af df fuel st px w h dep d hpal hq hpf hw hh
    rw [encode, if_neg (by omega), if_neg (by omega)]
    cases hqm : d.quality_mode
    case HighColor => exact absurd hqm hq
    all_goals exact encode_dither_emptyPalette nf af st px w h d hpal hpf
  · rw [encode, if_neg (by norm_num), if_neg (by norm_num)]
    show (match encode_highcolor idNormalize idDiffuse 1 SixelOutput.new
            [0, 0, 0] 1 1 hcEmptyDither with
          | Except.ok r => Except.ok (r.1, r.2.1)
          | Except.error e => Except.error e :
            Except Failure (SixelOutput × DitherConf)) = .error .panic
    rw [encode_highcolor_emptyPalette_panic]

/-- C2 witness: the error contract applied at a zero-width call and at an
empty-palette PAL8 call in Auto quality. -/
theorem claim2_error_contract_witness :
    encode idNormalize idApplyPalette idDiffuse 1 SixelOutput.new [0, 0, 0] 0 1 0
        hcEmptyDither = .error (.error .BadInput) ∧
    encode idNormalize idApplyPalette idDiffuse 1 SixelOutput.new [0, 0, 0] 1 1 0
        { hcEmptyDither with quality_mode := Quality.Auto,
                             pixelformat := PixelFormat.PAL8 } =
      .error (.error .BadArgument) :=
  ⟨claim2_error_contract.1 _ _ _ _ _ _ _ _ _ _ (Or.inl (by decide)),
   claim2_error_contract.2.1 _ _ _ _ _ _ _ _ _ _ rfl (by decide) (Or.inl rfl)
     (by decide) (by decide)⟩

/-- An in-range guarded read returns the element (`getD` form). -/
theorem listGet_ok (l : List Nat) (i : Nat) (h : i < l.length) :
    listGet l i = .ok (l.getD i 0) := by
  rw [listGet, List.get?_eq_getElem?, List.getElem?_eq_getElem h,
    List.getD_eq_getElem l 0 h]

theorem getD_replicate_zero (n i : Nat) : (List.replicate n 0).getD i 0 = 0 := by
  simp [List.getD, List.getElem?_replicate]
  split <;> rfl

/-- One step of the row loop of `encode_body` when the row completes and the
band is not yet due: advance to the next row with the updated map. -/
theorem bodyLoop_step (px : List Nat) (w ht nc : Nat) (kc : Int) (ps : Bool)
    (y i : Nat) (map : List Nat) (st : SixelOutput) (f : Bool) (mf : List Nat × Bool)
    (hy : y < ht)
    (hfill : (if st.encode_policy ≠ EncodePolicy.Size then (.ok false : Except Failure Bool)
              else if ps then
                match listGet px ((y - i) * w) with
                | .ok pix => .ok (decide (nc ≤ pix))
                | .error e => .error e
              else .ok true) = .ok f)
    (hrow : bodyRow px w nc kc ps y i 0 map f = .ok mf)
    (hcont : i + 1 < 6 ∧ y + 1 < ht) :
    bodyLoop px w ht nc kc ps y i map st =
      bodyLoop px w ht nc kc ps (y + 1) (i + 1) mf.1 st := by
  rw [bodyLoop, if_pos hy, hfill]
  simp only []
  rw [hrow]
  simp only []
  rw [if_pos hcont]

/-- A row failure aborts the loop with the row's error. -/
theorem bodyLoop_rowError (px : List Nat) (w ht nc : Nat) (kc : Int) (ps : Bool)
    (y i : Nat) (map : List Nat) (st : SixelOutput) (f : Bool) (e : Failure)
    (hy : y < ht)
    (hfill : (if st.encode_policy ≠ EncodePolicy.Size then (.ok false : Except Failure Bool)
              else if ps then
                match listGet px ((y - i) * w) with
                | .ok pix => .ok (decide (nc ≤ pix))
                | .error e => .error e
              else .ok true) = .ok f)
    (hrow : bodyRow px w nc kc ps y i 0 map f = .error e) :
    bodyLoop px w ht nc kc ps y i map st = .error e := by
  rw [bodyLoop, if_pos hy, hfill]
  simp only []
  rw [hrow]

/-- One step of the row loop at a band boundary: build and drain the band's
nodes, emit the next-line directive when `y` is not 5, and restart the map. -/
theorem bodyLoop_band (px : List Nat) (w ht nc : Nat) (kc : Int) (ps : Bool)
    (y i : Nat) (map : List Nat) (st : SixelOutput) (f : Bool) (mf : List Nat × Bool)
    (hy : y < ht)
    (hfill : (if st.encode_policy ≠ EncodePolicy.Size then (.ok false : Except Failure Bool)
              else if ps then
                match listGet px ((y - i) * w) with
                | .ok pix => .ok (decide (nc ≤ pix))
                | .error e => .error e
              else .ok true) = .ok f)
    (hrow : bodyRow px w nc kc ps y i 0 map f = .ok mf)
    (hstop : ¬ (i + 1 < 6 ∧ y + 1 < ht)) :
    bodyLoop px w ht nc kc ps y i map st =
      bodyLoop px w ht nc kc ps (y + 1) 0 (List.replicate (nc * w) 0)
        (drainLoop (if y ≠ 5 then putc { st with nodes := [] } '-'
                    else { st with nodes := [] })
          0 (buildBandNodes mf.1 w nc st.nodes) nc kc (i + 1) mf.2) := by
  rw [bodyLoop, if_pos hy, hfill]
  simp only []
  rw [hrow]
  simp only []
  rw [if_neg hstop]

theorem bodyLoop_done (px : List Nat) (w ht nc : Nat) (kc : Int) (ps : Bool)
    (y i : Nat) (map : List Nat) (st : SixelOutput) (hy : ¬ y < ht) :
    bodyLoop px w ht nc kc ps y i map st = .ok st := by
  rw [bodyLoop, if_neg hy]

/-- A row all of whose pixels are outside the palette or equal to the
keycolor leaves the map untouched; without per-slot palette state the row
clears `fillable`.  Requires the row's offsets to pass both overflow guards
and stay inside the pixel buffer. -/
theorem bodyRow_skip (px : List Nat) (w nc : Nat) (kc : Int) (y i : Nat)
    (hw : 0 < w) (hg1 : y ≤ i32Max / w) (hg2 : y * w + w - 1 ≤ i32Max)
    (hskip : ∀ x, x < w → y * w + x < px.length ∧
      ¬ (px.getD (y * w + x) 0 < nc ∧ (px.getD (y * w + x) 0 : Int) ≠ kc)) :
    ∀ (k x : Nat) (map : List Nat) (f : Bool), w - x = k →
      bodyRow px w nc kc false y i x map f = .ok (map, if x < w then false else f) := by
  intro k
  induction k using Nat.strong_induction_on with
  | _ k ih =>
    intro x map f hk
    by_cases hxw : x < w
    · rw [bodyRow, if_pos hxw, if_neg (by omega), if_neg (by omega),
        listGet_ok px (y * w + x) (hskip x hxw).1]
      simp only []
      rw [if_neg (hskip x hxw).2, if_neg Bool.false_ne_true]
      rw [ih (w - (x + 1)) (by omega) (x + 1) map false rfl]
      by_cases hx1 : x + 1 < w <;> simp [hx1, hxw]
    · rw [bodyRow, if_neg hxw, if_neg hxw]

/-- The first overflow guard (line 538): a row index exceeding
`i32::MAX / width` is rejected at the row's first column, before any buffer
access. -/
theorem bodyRow_guard1 (px : List Nat) (w nc : Nat) (kc : Int) (ps : Bool)
    (y i : Nat) (map : List Nat) (f : Bool) (hw : 0 < w) (hg : i32Max / w < y) :
    bodyRow px w nc kc ps y i 0 map f = .error (.error .BadIntegerOverflow) := by
  rw [bodyRow, if_pos hw, if_pos hg]

/-- The second overflow guard (line 546): when the row's last offset
`y * width + (width - 1)` exceeds `i32::MAX`, a row of skipped pixels walks
to the first offending column and fails there with `BadIntegerOverflow` -
before that column's offset is ever used as an index. -/
theorem bodyRow_skip_guard2 (px : List Nat) (w nc : Nat) (kc : Int) (y i : Nat)
    (hw : 0 < w) (hy : 0 < y) (hg1 : y ≤ i32Max / w) (hfire : i32Max < y * w + (w - 1))
    (hskip : ∀ x, x < w → y * w + x ≤ i32Max → y * w + x < px.length ∧
      ¬ (px.getD (y * w + x) 0 < nc ∧ (px.getD (y * w + x) 0 : Int) ≠ kc)) :
    ∀ (k x : Nat) (map : List Nat) (f : Bool), (i32Max - y * w + 1) - x = k →
      x ≤ i32Max - y * w + 1 →
      bodyRow px w nc kc false y i x map f = .error (.error .BadIntegerOverflow) := by
  have hyw : y * w ≤ i32Max := le_trans (Nat.mul_le_mul_right w hg1) (Nat.div_mul_le_self _ _)
  have hyw1 : 1 ≤ y * w := by
    have := Nat.mul_le_mul hy hw
    omega
  intro k
  induction k using Nat.strong_induction_on with
  | _ k ih =>
    intro x map f hk hx
    by_cases hstar : x = i32Max - y * w + 1
    · rw [bodyRow, if_pos (by omega), if_neg (by omega), if_pos (by omega)]
    · have hxlt : x < i32Max - y * w + 1 := by omega
      rw [bodyRow, if_pos (by omega), if_neg (by omega), if_neg (by omega),
        listGet_ok px (y * w + x) (hskip x (by omega) (by omega)).1]
      simp only []
      rw [if_neg (hskip x (by omega) (by omega)).2, if_neg Bool.false_ne_true]
      exact ih ((i32Max - y * w + 1) - (x + 1)) (by omega) (x + 1) map false rfl (by omega)

/-- The tile scan of an all-unset row finds no tiles. -/
theorem scanTiles_zero (row : Nat → Nat) (width : Nat)
    (hz : ∀ j, j < width → row j = 0) : scanTiles row width 0 = [] := by
  rw [scanTiles_skip row width width 0 width rfl (Nat.zero_le _) le_rfl
    (fun j _ h2 => hz j h2)]
  rw [scanTiles, if_neg (by omega)]

/-- A band whose map is all zero contributes no nodes beyond those carried
over. -/
theorem buildBandNodes_zero (w nc : Nat) (nodes : List SixelNode) :
    buildBandNodes (List.replicate (nc * w) 0) w nc nodes = nodes := by
  rw [buildBandNodes]
  have hcol : ∀ c, nodesOfColor (List.replicate (nc * w) 0) w c = [] := by
    intro c
    rw [nodesOfColor, scanTiles_zero]
    · rfl
    · intro j _
      rw [mapRow]
      exact getD_replicate_zero _ _
  have hfl : ((List.range nc).map (nodesOfColor (List.replicate (nc * w) 0) w)).flatten
      = [] := by
    rw [List.flatten_eq_nil_iff]
    intro l hl
    rcases List.mem_map.mp hl with ⟨c, _, hc⟩
    rw [← hc]
    exact hcol c
  rw [hfl]
  rfl

/-- Draining an empty node list does nothing. -/
theorem drainLoop_nil (st : SixelOutput) (x : Int) (nc kc : Int) (i : Nat)
    (f : Bool) : drainLoop st x [] nc kc i f = st := by
  rw [drainLoop]
  rfl

/-- `encode_header` only appends text: the encode policy is unchanged. -/
theorem encode_header_policy (st : SixelOutput) (w h : Int) :
    (encode_header st w h).encode_policy = st.encode_policy := by
  rw [encode_header]
  by_cases h1 : st.skip_dcs_envelope
  · rw [if_neg (by simp [h1])]
    simp only [puti, puts, putc]
  · rw [if_pos (by simp [h1])]
    by_cases h2 : st.has_8bit_control
    · rw [if_pos h2]
      simp only [puti, puts, putc]
    · rw [if_neg h2]
      simp only [puti, puts, putc]

/-- `encode_header` only appends text: the node list is unchanged. -/
theorem encode_header_nodes (st : SixelOutput) (w h : Int) :
    (encode_header st w h).nodes = st.nodes := by
  rw [encode_header]
  by_cases h1 : st.skip_dcs_envelope
  · rw [if_neg (by simp [h1])]
    simp only [puti, puts, putc]
  · rw [if_pos (by simp [h1])]
    by_cases h2 : st.has_8bit_control
    · rw [if_pos h2]
      simp only [puti, puts, putc]
    · rw [if_neg h2]
      simp only [puti, puts, putc]

/-- For a two-row image of keycolor pixels whose width exceeds `2^30`, the
first row passes both guards but the second trips the `y * width >
i32::MAX - x` guard partway across, so the row loop fails with
`BadIntegerOverflow`. -/
theorem bodyLoop_overflowFamily (w : Nat) (st : SixelOutput)
    (hw : 1073741824 < w) (hwm : w ≤ i32Max)
    (hpol : st.encode_policy ≠ EncodePolicy.Size) :
    bodyLoop (List.replicate (2 * w) 0) w 2 1 0 false 0 0
      (List.replicate (1 * w) 0) st = .error (.error .BadIntegerOverflow) := by
  have hi : i32Max = 2147483647 := rfl
  have hw0 : 0 < w := by omega
  have hskip : ∀ y, y < 2 → ∀ x, x < w →
      y * w + x < (List.replicate (2 * w) (0 : Nat)).length ∧
      ¬ ((List.replicate (2 * w) (0 : Nat)).getD (y * w + x) 0 < 1 ∧
        (((List.replicate (2 * w) (0 : Nat)).getD (y * w + x) 0 : Nat) : Int) ≠
          (0 : Int)) := by
    intro y hy x hx
    constructor
    · rw [List.length_replicate]
      have : y * w ≤ 1 * w := Nat.mul_le_mul_right w (by omega)
      omega
    · rw [getD_replicate_zero]
      simp
  have hfill : (if st.encode_policy ≠ EncodePolicy.Size then
        (.ok false : Except Failure Bool)
      else if false then
        match listGet (List.replicate (2 * w) 0) ((0 - 0) * w) with
        | .ok pix => .ok (decide (1 ≤ pix))
        | .error e => .error e
      else .ok true) = .ok false := if_pos hpol
  have hrow0 : bodyRow (List.replicate (2 * w) 0) w 1 0 false 0 0 0
      (List.replicate (1 * w) 0) false = .ok (List.replicate (1 * w) 0, false) := by
    have h := bodyRow_skip (List.replicate (2 * w) 0) w 1 0 0 0 hw0
      (Nat.zero_le _) (by omega) (hskip 0 (by omega)) (w - 0) 0
      (List.replicate (1 * w) 0) false rfl
    rw [if_pos hw0] at h
    exact h
  have hrow1 : bodyRow (List.replicate (2 * w) 0) w 1 0 false 1 1 0
      (List.replicate (1 * w) 0) false = .error (.error .BadIntegerOverflow) := by
    refine bodyRow_skip_guard2 (List.replicate (2 * w) 0) w 1 0 1 1 hw0 (by omega)
      ((Nat.one_le_div_iff hw0).mpr hwm) (by omega)
      (fun x hx _ => hskip 1 (by omega) x hx) (i32Max - 1 * w + 1 - 0) 0
      (List.replicate (1 * w) 0) false rfl (by omega)
  calc bodyLoop (List.replicate (2 * w) 0) w 2 1 0 false 0 0
        (List.replicate (1 * w) 0) st
      = bodyLoop (List.replicate (2 * w) 0) w 2 1 0 false 1 1
          ((List.replicate (1 * w) 0, false) : List Nat × Bool).1 st :=
        bodyLoop_step _ _ _ _ _ _ _ _ _ _ _ _ (by omega) hfill hrow0 (by omega)
    _ = .error (.error .BadIntegerOverflow) := by
        refine bodyLoop_rowError _ _ _ _ _ _ _ _ _ _ false _ (by omega) ?_ ?_
        · exact if_pos hpol
        · exact hrow1

/-- The dither configuration of the C3 experiments: single-color palette
whose color is the keycolor, PAL8 pass-through input, Auto quality. -/
def c3Dither : DitherConf := {
  palette := [0, 0, 0], ncolors := 1, keycolor := 0, bodyonly := false,
  pixelformat := PixelFormat.PAL8, method_for_diffuse := MethodForDiffuse.None,
  quality_mode := Quality.Auto }

/-- `encode_body` on the two-row overflow family: the palette fold is a
no-op (the only color is the keycolor), and the row loop trips the
per-offset overflow guard in the second row. -/
theorem encode_body_overflowFamily (w : Nat) (st : SixelOutput)
    (hw : 1073741824 < w) (hwm : w ≤ i32Max)
    (hpol : st.encode_policy ≠ EncodePolicy.Size) :
    encode_body st (List.replicate (2 * w) 0) w 2 [0, 0, 0] 1 0 false none =
      .error (.error .BadIntegerOverflow) := by
  show (match (if ({ st with active_palette := -1 } : SixelOutput).palette_type =
          PaletteType.Hls then
          (List.range 1).foldlM
            (fun s n => output_hls_palette_definition s [0, 0, 0] (n : Int) 0)
            ({ st with active_palette := -1 } : SixelOutput)
        else
          (List.range 1).foldlM
            (fun s n => output_rgb_palette_definition s [0, 0, 0] (n : Int) 0)
            ({ st with active_palette := -1 } : SixelOutput)) with
      | Except.error e => Except.error e
      | Except.ok st2 =>
        match bodyLoop (List.replicate (2 * w) 0) w 2 1 0 false 0 0
            (List.replicate (1 * w) 0) st2 with
        | Except.error e => Except.error e
        | Except.ok st3 => Except.ok st3 :
        Except Failure SixelOutput) = .error (.error .BadIntegerOverflow)
  have hfH : (List.range 1).foldlM
      (fun s n => output_hls_palette_definition s [0, 0, 0] (n : Int) 0)
      ({ st with active_palette := -1 } : SixelOutput) =
      .ok ({ st with active_palette := -1 } : SixelOutput) := rfl
  have hfR : (List.range 1).foldlM
      (fun s n => output_rgb_palette_definition s [0, 0, 0] (n : Int) 0)
      ({ st with active_palette := -1 } : SixelOutput) =
      .ok ({ st with active_palette := -1 } : SixelOutput) := rfl
  rw [hfH, hfR, ite_self]
  simp only []
  rw [bodyLoop_overflowFamily w { st with active_palette := -1 } hw hwm hpol]

/-- The overflow family at the `encode` entry point: Auto quality, PAL8
pass-through. -/
theorem encode_overflowFamily (w fuel : Nat) (st : SixelOutput) (dep : Int)
    (hw : 1073741824 < w) (hwm : w ≤ i32Max)
    (hpol : st.encode_policy ≠ EncodePolicy.Size) :
    encode idNormalize idApplyPalette idDiffuse fuel st (List.replicate (2 * w) 0)
      (w : Int) 2 dep c3Dither = .error (.error .BadIntegerOverflow) := by
  rw [encode, if_neg (by omega), if_neg (by omega)]
  show (match encode_body (encode_header st (w : Int) 2) (List.replicate (2 * w) 0)
          ((w : Int)).toNat 2 [0, 0, 0] 1 0 false none with
        | Except.error e => Except.error e
        | Except.ok st2 => Except.ok (encode_footer st2, c3Dither) :
          Except Failure (SixelOutput × DitherConf)) =
      .error (.error .BadIntegerOverflow)
  have htn : ((w : Int)).toNat = w := Int.toNat_natCast w
  rw [htn]
  rw [encode_body_overflowFamily w (encode_header st (w : Int) 2) hw hwm
    (by rw [encode_header_policy]; exact hpol)]

/-- The row loop at the exact boundary `width * height = 2^31`: both rows
of the two-row keycolor image pass the guards, the band is all unset, and
the loop completes, emitting only the next-line directive. -/
theorem bodyLoop_c3success (st : SixelOutput)
    (hpol : st.encode_policy ≠ EncodePolicy.Size) (hnodes : st.nodes = []) :
    bodyLoop (List.replicate 2147483648 (0 : Nat)) 1073741824 2 1 0 false 0 0
      (List.replicate (1 * 1073741824) 0) st =
      .ok (putc { st with nodes := [] } '-') := by
  have hskip : ∀ y, y < 2 → ∀ x, x < 1073741824 →
      y * 1073741824 + x < (List.replicate 2147483648 (0 : Nat)).length ∧
      ¬ ((List.replicate 2147483648 (0 : Nat)).getD (y * 1073741824 + x) 0 < 1 ∧
        (((List.replicate 2147483648 (0 : Nat)).getD (y * 1073741824 + x) 0 : Nat) :
          Int) ≠ (0 : Int)) := by
    intro y hy x hx
    constructor
    · rw [List.length_replicate]
      have : y * 1073741824 ≤ 1 * 1073741824 :=
        Nat.mul_le_mul_right 1073741824 (by omega)
      omega
    · rw [getD_replicate_zero]
      simp
  have hfill : (if st.encode_policy ≠ EncodePolicy.Size then
        (.ok false : Except Failure Bool)
      else if false then
        match listGet (List.replicate 2147483648 (0 : Nat)) ((0 - 0) * 1073741824) with
        | .ok pix => .ok (decide (1 ≤ pix))
        | .error e => .error e
      else .ok true) = .ok false := if_pos hpol
  have hrow0 : bodyRow (List.replicate 2147483648 (0 : Nat)) 1073741824 1 0 false 0 0 0
      (List.replicate (1 * 1073741824) 0) false =
      .ok (List.replicate (1 * 1073741824) 0, false) := by
    have h := bodyRow_skip (List.replicate 2147483648 (0 : Nat)) 1073741824 1 0 0 0
      (by decide) (Nat.zero_le _) (by decide) (hskip 0 (by omega)) (1073741824 - 0) 0
      (List.replicate (1 * 1073741824) 0) false rfl
    rw [if_pos (by decide)] at h
    exact h
  have hrow1 : bodyRow (List.replicate 2147483648 (0 : Nat)) 1073741824 1 0 false 1 1 0
      (List.replicate (1 * 1073741824) 0) false =
      .ok (List.replicate (1 * 1073741824) 0, false) := by
    have h := bodyRow_skip (List.replicate 2147483648 (0 : Nat)) 1073741824 1 0 1 1
      (by decide) (by decide) (by decide) (hskip 1 (by omega)) (1073741824 - 0) 0
      (List.replicate (1 * 1073741824) 0) false rfl
    rw [if_pos (by decide)] at h
    exact h
  rw [bodyLoop_step (List.replicate 2147483648 (0 : Nat)) 1073741824 2 1 0 false 0 0
    (List.replicate (1 * 1073741824) 0) st false
    (List.replicate (1 * 1073741824) 0, false) (by omega) hfill hrow0 (by omega)]
  simp only []
  rw [bodyLoop_band (List.replicate 2147483648 (0 : Nat)) 1073741824 2 1 0 false 1 1
    (List.replicate (1 * 1073741824) 0) st false
    (List.replicate (1 * 1073741824) 0, false) (by omega) hfill hrow1 (by omega)]
  simp only []
  rw [if_pos (show (1 : Nat) ≠ 5 by decide), hnodes, buildBandNodes_zero,
    drainLoop_nil, bodyLoop_done _ _ _ _ _ _ _ _ _ _ (by omega)]

/-- `encode_body` at the exact boundary succeeds. -/
theorem encode_body_c3success (st : SixelOutput)
    (hpol : st.encode_policy ≠ EncodePolicy.Size) (hnodes : st.nodes = []) :
    ∃ r, encode_body st (List.replicate 2147483648 0) 1073741824 2 [0, 0, 0] 1 0
      false none = .ok r := by
  refine ⟨putc { st with active_palette := -1, nodes := [] } '-', ?_⟩
  show (match (if ({ st with active_palette := -1 } : SixelOutput).palette_type =
          PaletteType.Hls then
          (List.range 1).foldlM
            (fun s n => output_hls_palette_definition s [0, 0, 0] (n : Int) 0)
            ({ st with active_palette := -1 } : SixelOutput)
        else
          (List.range 1).foldlM
            (fun s n => output_rgb_palette_definition s [0, 0, 0] (n : Int) 0)
            ({ st with active_palette := -1 } : SixelOutput)) with
      | Except.error e => Except.error e
      | Except.ok st2 =>
        match bodyLoop (List.replicate 2147483648 0) 1073741824 2 1 0 false 0 0
            (List.replicate (1 * 1073741824) 0) st2 with
        | Except.error e => Except.error e
        | Except.ok st3 => Except.ok st3 :
        Except Failure SixelOutput) =
      .ok (putc { st with active_palette := -1, nodes := [] } '-')
  have hfH : (List.range 1).foldlM
      (fun s n => output_hls_palette_definition s [0, 0, 0] (n : Int) 0)
      ({ st with active_palette := -1 } : SixelOutput) =
      .ok ({ st with active_palette := -1 } : SixelOutput) := rfl
  have hfR : (List.range 1).foldlM
      (fun s n => output_rgb_palette_definition s [0, 0, 0] (n : Int) 0)
      ({ st with active_palette := -1 } : SixelOutput) =
      .ok ({ st with active_palette := -1 } : SixelOutput) := rfl
  rw [hfH, hfR, ite_self]
  simp only []
  rw [bodyLoop_c3success { st with active_palette := -1 } hpol hnodes]

/-- Dispatch of `encode` in Auto quality with PAL8 pass-through input, ok
flavor. -/
theorem encode_auto_pal8_ok
    (nf : List Nat → PixelFormat → Int → Int →
      Except SixelError (List Nat × PixelFormat))
    (af : DitherConf → List Nat → Int → Int → Except SixelError (List Nat))
    (df : List Nat → Int → Int → Int → Int → MethodForDiffuse → List Nat)
    (fuel : Nat) (st : SixelOutput) (px : List Nat) (w h dep : Int) (d : DitherConf)
    (wN hN : Nat) (st2 : SixelOutput)
    (hq : d.quality_mode = Quality.Auto) (hpf : d.pixelformat = PixelFormat.PAL8)
    (hw : ¬ w < 1) (hh : ¬ h < 1) (hwN : w.toNat = wN) (hhN : h.toNat = hN)
    (hbody : encode_body (encode_header st w h) px wN hN d.palette d.ncolors
      d.keycolor d.bodyonly none = .ok st2) :
    encode nf af df fuel st px w h dep d = .ok (encode_footer st2, d) := by
  rw [encode, if_neg hw, if_neg hh, hq]
  show encode_dither nf af st px w h d = _
  rw [encode_dither, hpf]
  show (match encode_body (encode_header st w h) px w.toNat h.toNat d.palette
          d.ncolors d.keycolor d.bodyonly none with
        | Except.error e => Except.error e
        | Except.ok st3 => Except.ok (encode_footer st3, d) :
          Except Failure (SixelOutput × DitherConf)) = _
  rw [hwN, hhN, hbody]

/-- Dispatch of `encode` in Auto quality with PAL8 pass-through input, error
flavor. -/
theorem encode_auto_pal8_err
    (nf : List Nat → PixelFormat → Int → Int →
      Except SixelError (List Nat × PixelFormat))
    (af : DitherConf → List Nat → Int → Int → Except SixelError (List Nat))
    (df : List Nat → Int → Int → Int → Int → MethodForDiffuse → List Nat)
    (fuel : Nat) (st : SixelOutput) (px : List Nat) (w h dep : Int) (d : DitherConf)
    (wN hN : Nat) (e : Failure)
    (hq : d.quality_mode = Quality.Auto) (hpf : d.pixelformat = PixelFormat.PAL8)
    (hw : ¬ w < 1) (hh : ¬ h < 1) (hwN : w.toNat = wN) (hhN : h.toNat = hN)
    (hbody : encode_body (encode_header st w h) px wN hN d.palette d.ncolors
      d.keycolor d.bodyonly none = .error e) :
    encode nf af df fuel st px w h dep d = .error e := by
  rw [encode, if_neg hw, if_neg hh, hq]
  show encode_dither nf af st px w h d = _
  rw [encode_dither, hpf]
  show (match encode_body (encode_header st w h) px w.toNat h.toNat d.palette
          d.ncolors d.keycolor d.bodyonly none with
        | Except.error e => Except.error e
        | Except.ok st3 => Except.ok (encode_footer st3, d) :
          Except Failure (SixelOutput × DitherConf)) = _
  rw [hwN, hhN, hbody]

/-- C3 counterexample: the claim's premise - every last-row offset
`width * (height - 1) + x` representable while `height * width` overflows
the signed 32-bit range - forces `width * height = 2^31` exactly, and there
the per-offset guards all pass: `encode` succeeds on a `2^30`-by-2 keycolor
image instead of failing with `BadIntegerOverflow`. -/
theorem claim3_overflow_counterexample :
    1073741824 * 2 = 2 ^ 31 ∧ i32Max < 1073741824 * 2 ∧
    1073741824 * (2 - 1) + (1073741824 - 1) ≤ i32Max ∧
    ∃ r, encode idNormalize idApplyPalette idDiffuse 1 SixelOutput.new
      (List.replicate 2147483648 0) 1073741824 2 0 c3Dither = .ok r := by
  refine ⟨by norm_num, by decide, by decide, ?_⟩
  obtain ⟨r, hr⟩ := encode_body_c3success (encode_header SixelOutput.new 1073741824 2)
    (by rw [encode_header_policy]; decide)
    (by rw [encode_header_nodes]; rfl)
  exact ⟨(encode_footer r, c3Dither),
    encode_auto_pal8_ok idNormalize idApplyPalette idDiffuse 1 SixelOutput.new
      (List.replicate 2147483648 0) 1073741824 2 0 c3Dither 1073741824 2 r rfl rfl
      (by decide) (by decide) rfl rfl hr⟩

/-- C3 (amended): the overflow protection is per-offset, not per-image.  A
row index beyond `i32::MAX / width` is rejected at the row's first column
before any access; and on a two-row keycolor image whose width exceeds
`2^30` (so the second row's offsets pass `i32::MAX`), `encode` fails with
`BadIntegerOverflow` - the guard catches every offset about to overflow
before it is used as an index.  The product `height * width` itself is
never computed, so its overflow alone (the boundary `width * height =
2^31`) does not make `encode` fail. -/
theorem claim3_overflow_amended :
    (∀ (px : List Nat) (w nc : Nat) (kc : Int) (ps : Bool) (y i : Nat)
      (map : List Nat) (f : Bool), 0 < w → i32Max / w < y →
      bodyRow px w nc kc ps y i 0 map f = .error (.error .BadIntegerOverflow)) ∧
    (∀ (w fuel : Nat) (st : SixelOutput) (dep : Int),
      1073741824 < w → w ≤ i32Max → st.encode_policy ≠ EncodePolicy.Size →
      encode idNormalize idApplyPalette idDiffuse fuel st
        (List.replicate (2 * w) 0) (w : Int) 2 dep c3Dither =
        .error (.error .BadIntegerOverflow)) :=
  ⟨fun px w nc kc ps y i map f hw hg => bodyRow_guard1 px w nc kc ps y i map f hw hg,
   fun w fuel st dep hw hwm hpol => encode_overflowFamily w fuel st dep hw hwm hpol⟩

/-- C3 witness: the first guard fires for row `2^31` at width 1, and the
two-row family fails at width `2^30 + 1`. -/
theorem claim3_overflow_witness :
    bodyRow [] 1 0 0 false 2147483648 0 0 [] false =
      .error (.error .BadIntegerOverflow) ∧
    encode idNormalize idApplyPalette idDiffuse 0 SixelOutput.new
      (List.replicate (2 * 1073741825) 0) (1073741825 : Int) 2 0 c3Dither =
      .error (.error .BadIntegerOverflow) :=
  ⟨claim3_overflow_amended.1 [] 1 0 0 false 2147483648 0 [] false (by decide)
    (by decide),
   claim3_overflow_amended.2 1073741825 0 SixelOutput.new 0 (by decide) (by decide)
    (by decide)⟩

/-- Specification-side count (not from the source): the number of
graphics-next-line directives the row loop emits for a height-`h` image,
following the band structure - one per band whose last row is not row 5.
Used to compare the code's behavior with the claimed law. -/
def bandDashes (h y : Nat) : Nat :=
  if y < h then
    (if min (y + 5) (h - 1) ≠ 5 then 1 else 0) +
      bandDashes h (min (y + 5) (h - 1) + 1)
  else 0
termination_by h - y
decreasing_by omega

/-- Traversing one band of an all-keycolor single-column image: the rows
leave the map untouched, the band drains nothing, and the next-line
directive is emitted exactly when the band's last row is not row 5. -/
theorem bodyLoop_emptyBandRun (h : Nat) (hh : h ≤ i32Max) :
    ∀ (m y i : Nat) (st : SixelOutput), 5 - i = m → y < h → i ≤ 5 →
      st.encode_policy ≠ EncodePolicy.Size → st.nodes = [] →
      bodyLoop (List.replicate h 0) 1 h 1 0 false y i (List.replicate (1 * 1) 0) st =
        bodyLoop (List.replicate h 0) 1 h 1 0 false (min (y + (5 - i)) (h - 1) + 1) 0
          (List.replicate (1 * 1) 0)
          (if min (y + (5 - i)) (h - 1) ≠ 5 then putc { st with nodes := [] } '-'
           else { st with nodes := [] }) := by
  intro m
  induction m with
  | zero =>
    intro y i st hm hy hi hpol hnodes
    have hi5 : i = 5 := by omega
    subst hi5
    have hrow : bodyRow (List.replicate h 0) 1 1 0 false y 5 0
        (List.replicate (1 * 1) 0) false = .ok (List.replicate (1 * 1) 0, false) := by
      have hs := bodyRow_skip (List.replicate h 0) 1 1 0 y 5 (by omega)
        (by omega) (by omega)
        (fun x hx => by
          have hx0 : x = 0 := by omega
          subst hx0
          refine ⟨by rw [List.length_replicate]; omega, ?_⟩
          rw [getD_replicate_zero]
          simp) (1 - 0) 0 (List.replicate (1 * 1) 0) false rfl
      rw [if_pos (by omega)] at hs
      exact hs
    rw [bodyLoop_band (List.replicate h 0) 1 h 1 0 false y 5
      (List.replicate (1 * 1) 0) st false (List.replicate (1 * 1) 0, false) hy
      (if_pos hpol) hrow (by omega)]
    simp only []
    rw [hnodes, buildBandNodes_zero, drainLoop_nil]
    have he : min (y + (5 - 5)) (h - 1) = y := by omega
    rw [he]
  | succ n ih =>
    intro y i st hm hy hi hpol hnodes
    by_cases hcont : y + 1 < h
    · have hrow : bodyRow (List.replicate h 0) 1 1 0 false y i 0
          (List.replicate (1 * 1) 0) false =
          .ok (List.replicate (1 * 1) 0, false) := by
        have hs := bodyRow_skip (List.replicate h 0) 1 1 0 y i (by omega)
          (by omega) (by omega)
          (fun x hx => by
            have hx0 : x = 0 := by omega
            subst hx0
            refine ⟨by rw [List.length_replicate]; omega, ?_⟩
            rw [getD_replicate_zero]
            simp) (1 - 0) 0 (List.replicate (1 * 1) 0) false rfl
        rw [if_pos (by omega)] at hs
        exact hs
      rw [bodyLoop_step (List.replicate h 0) 1 h 1 0 false y i
        (List.replicate (1 * 1) 0) st false (List.replicate (1 * 1) 0, false) hy
        (if_pos hpol) hrow (by omega)]
      simp only []
      rw [ih (y + 1) (i + 1) st (by omega) (by omega) (by omega) hpol hnodes]
      have harith : y + 1 + (5 - (i + 1)) = y + (5 - i) := by omega
      rw [harith]
    · have hrow : bodyRow (List.replicate h 0) 1 1 0 false y i 0
          (List.replicate (1 * 1) 0) false =
          .ok (List.replicate (1 * 1) 0, false) := by
        have hs := bodyRow_skip (List.replicate h 0) 1 1 0 y i (by omega)
          (by omega) (by omega)
          (fun x hx => by
            have hx0 : x = 0 := by omega
            subst hx0
            refine ⟨by rw [List.length_replicate]; omega, ?_⟩
            rw [getD_replicate_zero]
            simp) (1 - 0) 0 (List.replicate (1 * 1) 0) false rfl
        rw [if_pos (by omega)] at hs
        exact hs
      rw [bodyLoop_band (List.replicate h 0) 1 h 1 0 false y i
        (List.replicate (1 * 1) 0) st false (List.replicate (1 * 1) 0, false) hy
        (if_pos hpol) hrow (by omega)]
      simp only []
      rw [hnodes, buildBandNodes_zero, drainLoop_nil]
      have he : min (y + (5 - i)) (h - 1) = y := by omega
      rw [he]

/-- The row loop of an all-keycolor single-column image appends exactly the
band-boundary next-line directives to the buffer and nothing else. -/
theorem bodyLoop_emptyBands (h : Nat) (hh : h ≤ i32Max) :
    ∀ (k y : Nat) (st : SixelOutput), h - y = k →
      st.encode_policy ≠ EncodePolicy.Size → st.nodes = [] →
      bodyLoop (List.replicate h 0) 1 h 1 0 false y 0 (List.replicate (1 * 1) 0) st =
        .ok { st with buffer := st.buffer ++ List.replicate (bandDashes h y) '-' } := by
  intro k
  induction k using Nat.strong_induction_on with
  | _ k ih =>
    intro y st hk hpol hnodes
    by_cases hy : y < h
    · rw [bodyLoop_emptyBandRun h hh (5 - 0) y 0 st rfl hy (by omega) hpol hnodes]
      have h50 : (5 : Nat) - 0 = 5 := rfl
      rw [h50]
      have hbd : bandDashes h y =
          (if min (y + 5) (h - 1) ≠ 5 then 1 else 0) +
            bandDashes h (min (y + 5) (h - 1) + 1) := by
        rw [bandDashes, if_pos hy]
      have hey : y ≤ min (y + 5) (h - 1) ∧ min (y + 5) (h - 1) < h := by
        constructor <;> omega
      by_cases he5 : min (y + 5) (h - 1) ≠ 5
      · rw [if_pos he5]
        rw [ih (h - (min (y + 5) (h - 1) + 1)) (by omega) (min (y + 5) (h - 1) + 1)
          (putc { st with nodes := [] } '-') rfl hpol rfl]
        rw [hbd, if_pos he5]
        simp only [putc, Except.ok.injEq, SixelOutput.mk.injEq]
        refine ⟨trivial, trivial, trivial, trivial, hnodes.symm, trivial, trivial, ?_,
          trivial, trivial, trivial, trivial, trivial⟩
        rw [List.replicate_add, List.replicate_one, List.append_assoc]
      · rw [if_neg he5]
        rw [ih (h - (min (y + 5) (h - 1) + 1)) (by omega) (min (y + 5) (h - 1) + 1)
          ({ st with nodes := [] }) rfl hpol rfl]
        rw [hbd, if_neg he5]
        simp only [Except.ok.injEq, SixelOutput.mk.injEq]
        refine ⟨trivial, trivial, trivial, trivial, hnodes.symm, trivial, trivial, ?_,
          trivial, trivial, trivial, trivial, trivial⟩
        rw [Nat.zero_add]
    · rw [bodyLoop_done _ _ _ _ _ _ _ _ _ _ hy]
      have hbd : bandDashes h y = 0 := by
        rw [bandDashes, if_neg hy]
      rw [hbd]
      simp

/-- Past row 5, every band contributes exactly one next-line directive. -/
theorem bandDashes_high (h : Nat) :
    ∀ (k y : Nat), h - y = k → 5 < y → y < h →
      bandDashes h y = (h - y + 5) / 6 := by
  intro k
  induction k using Nat.strong_induction_on with
  | _ k ih =>
    intro y hk h5 hy
    rw [bandDashes, if_pos hy, if_pos (by omega)]
    by_cases hrec : min (y + 5) (h - 1) + 1 < h
    · rw [ih (h - (min (y + 5) (h - 1) + 1)) (by omega) (min (y + 5) (h - 1) + 1)
        rfl (by omega) hrec]
      omega
    · rw [bandDashes, if_neg hrec]
      omega

/-- Closed form of the next-line count: one per band, minus one when the
first band ends exactly at row 5 (height at least 6). -/
theorem bandDashes_closed (h : Nat) (h0 : 0 < h) :
    bandDashes h 0 = (h + 5) / 6 - (if 6 ≤ h then 1 else 0) := by
  rw [bandDashes, if_pos h0]
  by_cases h6 : 6 ≤ h
  · rw [show min (0 + 5) (h - 1) = 5 from by omega, if_neg (by simp)]
    by_cases h7 : 6 < h
    · rw [bandDashes_high h (h - 6) (5 + 1) rfl (by omega) (by omega)]
      have h6h : (6 : Nat) ≤ h := h6
      rw [if_pos h6h]
      omega
    · rw [bandDashes, if_neg (by omega), if_pos h6]
      omega
  · rw [show min (0 + 5) (h - 1) = h - 1 from by omega, if_pos (by omega)]
    rw [show h - 1 + 1 = h from by omega, bandDashes, if_neg (by omega),
      if_neg h6]
    omega

/-- `encode_body` on an all-keycolor single-column image: the palette fold
is a no-op and the body consists exactly of the band-boundary next-line
directives. -/
theorem encode_body_emptyBands (h : Nat) (st : SixelOutput) (hh : h ≤ i32Max)
    (hpol : st.encode_policy ≠ EncodePolicy.Size) (hnodes : st.nodes = []) :
    encode_body st (List.replicate h 0) 1 h [0, 0, 0] 1 0 false none =
      .ok { st with active_palette := -1,
                    buffer := st.buffer ++ List.replicate (bandDashes h 0) '-' } := by
  show (match (if ({ st with active_palette := -1 } : SixelOutput).palette_type =
          PaletteType.Hls then
          (List.range 1).foldlM
            (fun s n => output_hls_palette_definition s [0, 0, 0] (n : Int) 0)
            ({ st with active_palette := -1 } : SixelOutput)
        else
          (List.range 1).foldlM
            (fun s n => output_rgb_palette_definition s [0, 0, 0] (n : Int) 0)
            ({ st with active_palette := -1 } : SixelOutput)) with
      | Except.error e => Except.error e
      | Except.ok st2 =>
        match bodyLoop (List.replicate h 0) 1 h 1 0 false 0 0
            (List.replicate (1 * 1) 0) st2 with
        | Except.error e => Except.error e
        | Except.ok st3 => Except.ok st3 :
        Except Failure SixelOutput) =
      .ok { st with active_palette := -1,
                    buffer := st.buffer ++ List.replicate (bandDashes h 0) '-' }
  have hfH : (List.range 1).foldlM
      (fun s n => output_hls_palette_definition s [0, 0, 0] (n : Int) 0)
      ({ st with active_palette := -1 } : SixelOutput) =
      .ok ({ st with active_palette := -1 } : SixelOutput) := rfl
  have hfR : (List.range 1).foldlM
      (fun s n => output_rgb_palette_definition s [0, 0, 0] (n : Int) 0)
      ({ st with active_palette := -1 } : SixelOutput) =
      .ok ({ st with active_palette := -1 } : SixelOutput) := rfl
  rw [hfH, hfR, ite_self]
  simp only []
  rw [bodyLoop_emptyBands h hh (h - 0) 0 { st with active_palette := -1 } rfl
    hpol hnodes]

/-- C8 (amended): the next-line directive is emitted at every band boundary
whose last row is not row 5 - so bands are separated by exactly one `-` and
no `-` trails the final band when the image height is at least 6, but an
image shorter than six rows gets a leading `-` before its only band.  On an
all-keycolor single-column image the body is exactly those directives:
`(h + 5) / 6 - 1` of them when `6 ≤ h`, and `(h + 5) / 6` (one, despite the
single band) when `h < 6`. -/
theorem claim8_nextline_amended :
    (∀ (h : Nat) (st : SixelOutput), h ≤ i32Max →
      st.encode_policy ≠ EncodePolicy.Size → st.nodes = [] →
      encode_body st (List.replicate h 0) 1 h [0, 0, 0] 1 0 false none =
        .ok { st with active_palette := -1,
                      buffer := st.buffer ++ List.replicate (bandDashes h 0) '-' }) ∧
    (∀ h : Nat, 0 < h → bandDashes h 0 = (h + 5) / 6 - (if 6 ≤ h then 1 else 0)) :=
  ⟨fun h st hh hpol hnodes => encode_body_emptyBands h st hh hpol hnodes,
   fun h h0 => bandDashes_closed h h0⟩

/-- C8 counterexample: a one-row image occupies a single band, yet its body
contains one next-line directive (the claim says none for height at most
six): the directive is emitted because the band's last row 0 is not row 5. -/
theorem claim8_nextline_counterexample :
    encode_body SixelOutput.new (List.replicate 1 0) 1 1 [0, 0, 0] 1 0 false none =
      .ok { SixelOutput.new with active_palette := -1, buffer := ['-'] } ∧
    (1 : Nat) ≤ 6 ∧ (['-'] : List Char).count '-' = 1 := by
  refine ⟨?_, by omega, by decide⟩
  have h := encode_body_emptyBands 1 SixelOutput.new (by decide) (by decide) rfl
  have hbd : bandDashes 1 0 = 1 := by
    rw [bandDashes, if_pos (by omega)]
    rw [show min (0 + 5) (1 - 1) = 0 from by omega]
    rw [if_pos (by omega), bandDashes, if_neg (by omega)]
  rw [hbd] at h
  exact h

/-- C8 witness: the amended law applied at heights 1 and 12. -/
theorem claim8_nextline_witness :
    encode_body SixelOutput.new (List.replicate 1 0) 1 1 [0, 0, 0] 1 0 false none =
      .ok { SixelOutput.new with
            active_palette := -1,
            buffer := SixelOutput.new.buffer ++ List.replicate (bandDashes 1 0) '-' } ∧
    bandDashes 12 0 = (12 + 5) / 6 - (if 6 ≤ 12 then 1 else 0) :=
  ⟨claim8_nextline_amended.1 1 SixelOutput.new (by decide) (by decide) rfl,
   claim8_nextline_amended.2 12 (by decide)⟩

/-- A zero-width row loop touches nothing: every row completes immediately
and every band is empty. -/
theorem bodyLoop_widthZero (px : List Nat) (h : Nat) (kc : Int) (ps : Bool) :
    ∀ (k y i : Nat) (map : List Nat) (st : SixelOutput), h - y = k →
      st.encode_policy ≠ EncodePolicy.Size → st.nodes = [] →
      ∃ st2, bodyLoop px 0 h 0 kc ps y i map st = .ok st2 := by
  intro k
  induction k using Nat.strong_induction_on with
  | _ k ih =>
    intro y i map st hk hpol hnodes
    by_cases hy : y < h
    · have hrow : bodyRow px 0 0 kc ps y i 0 map false = .ok (map, false) := by
        rw [bodyRow, if_neg (by omega)]
      by_cases hcont : i + 1 < 6 ∧ y + 1 < h
      · rw [bodyLoop_step px 0 h 0 kc ps y i map st false (map, false) hy
          (if_pos hpol) hrow hcont]
        exact ih (h - (y + 1)) (by omega) (y + 1) (i + 1) (map, false).1 st rfl
          hpol hnodes
      · rw [bodyLoop_band px 0 h 0 kc ps y i map st false (map, false) hy
          (if_pos hpol) hrow hcont]
        rw [hnodes]
        rw [show buildBandNodes (map, false).1 0 0 [] = [] from rfl]
        rw [drainLoop_nil]
        by_cases hy5 : y ≠ 5
        · rw [if_pos hy5]
          exact ih (h - (y + 1)) (by omega) (y + 1) 0 _ _ rfl hpol rfl
        · rw [if_neg hy5]
          exact ih (h - (y + 1)) (by omega) (y + 1) 0 _ _ rfl hpol rfl
    · exact ⟨st, bodyLoop_done px 0 h 0 kc ps y i map st hy⟩

/-- `encode_body` of a zero-width image with an empty local palette budget
succeeds (used by the high-color flush path, which passes keycolor 255 and
the per-slot palette state). -/
theorem encode_body_widthZero (st : SixelOutput) (px : List Nat) (h : Nat)
    (kc : Int) (ps : List Int)
    (hpol : st.encode_policy ≠ EncodePolicy.Size) (hnodes : st.nodes = []) :
    ∃ r, encode_body st px 0 h [0, 0, 0] 0 kc false (some ps) = .ok r := by
  obtain ⟨st2, hbl⟩ := bodyLoop_widthZero px h kc true (h - 0) 0 0
    (List.replicate (0 * 0) 0) { st with active_palette := -1 } rfl hpol hnodes
  refine ⟨putc st2 '$', ?_⟩
  show (match (if ({ st with active_palette := -1 } : SixelOutput).palette_type =
          PaletteType.Hls then
          (List.range 0).foldlM
            (fun s n => output_hls_palette_definition s [0, 0, 0] (n : Int) kc)
            ({ st with active_palette := -1 } : SixelOutput)
        else
          (List.range 0).foldlM
            (fun s n => output_rgb_palette_definition s [0, 0, 0] (n : Int) kc)
            ({ st with active_palette := -1 } : SixelOutput)) with
      | Except.error e => Except.error e
      | Except.ok stm =>
        match bodyLoop px 0 h 0 kc true 0 0 (List.replicate (0 * 0) 0) stm with
        | Except.error e => Except.error e
        | Except.ok st3 => Except.ok (putc st3 '$') :
        Except Failure SixelOutput) = .ok (putc st2 '$')
  have hfH : (List.range 0).foldlM
      (fun s n => output_hls_palette_definition s [0, 0, 0] (n : Int) kc)
      ({ st with active_palette := -1 } : SixelOutput) =
      .ok ({ st with active_palette := -1 } : SixelOutput) := rfl
  have hfR : (List.range 0).foldlM
      (fun s n => output_rgb_palette_definition s [0, 0, 0] (n : Int) kc)
      ({ st with active_palette := -1 } : SixelOutput) =
      .ok ({ st with active_palette := -1 } : SixelOutput) := rfl
  rw [hfH, hfR, ite_self]
  simp only []
  rw [hbl]

/-- A zero-width scan processes rows without reading pixels or setting the
dirty flag: the row-and-flush loop runs to the last row and stops with no
flush event; only the per-band mark reset (to the fixed 32768 size) and the
cursor fields change. -/
theorem hcRows_widthZero
    (d : List Nat → Int → Int → Int → Int → MethodForDiffuse → List Nat)
    (m : MethodForDiffuse) (b : Bool) (nc : Nat) (st : SixelOutput) (h : Nat) :
    ∀ (k : Nat) (s : HCState) (y mod_y : Nat) (ev : List HCEvent),
      h - y = k → y < h → s.dirty = false →
      ∃ s2, hcRows d m b nc 0 st s h y mod_y ev = .ok (st, s2, h, ev, false) ∧
        s2.dirty = false ∧ s2.paletted = s.paletted ∧ s2.palette = s.palette ∧
        s2.palstate = s.palstate ∧ s2.output_count = s.output_count := by
  intro k
  induction k using Nat.strong_induction_on with
  | _ k ih =>
    intro s y mod_y ev hk hy hdirty
    have hrow : hcRow d m 0 h y 0 s = .ok s := by
      rw [hcRow, if_neg (by omega)]
    rw [hcRows, dif_pos hy, hrow]
    simp only []
    by_cases hstop : h ≤ y + 1
    · rw [dif_pos (⟨hstop, hdirty⟩ : h ≤ y + 1 ∧ s.dirty = false)]
      exact ⟨s, rfl, hdirty, rfl, rfl, rfl, rfl⟩
    · rw [dif_neg (show ¬ (h ≤ y + 1 ∧ s.dirty = false) from fun hc => hstop hc.1)]
      rw [dif_neg (show ¬ (s.dirty = true ∧
          ((if h ≤ y + 1 then 5 else mod_y) = 5 ∨ h ≤ y + 1)) from
        fun hc => Bool.false_ne_true (hdirty ▸ hc.1))]
      by_cases hm6 : mod_y + 1 = 6
      · rw [if_pos hm6]
        simp only []
        obtain ⟨s2, hrec, h1, h2, h3, h4, h5⟩ := ih (h - (y + 1)) (by omega)
          ({ s with marks := List.replicate 32768 false, mptr := 0 }) (y + 1) 0 ev
          rfl (by omega) hdirty
        exact ⟨s2, hrec, h1, h2, h3, h4, h5⟩
      · rw [if_neg hm6]
        simp only []
        exact ih (h - (y + 1)) (by omega) s (y + 1) (mod_y + 1) ev rfl (by omega)
          hdirty

/-- A clean last row stops the scanning loop with no flush event: the
body-rendering path is not called from the loop for a clean image. -/
theorem hcRows_cleanStop
    (d : List Nat → Int → Int → Int → Int → MethodForDiffuse → List Nat)
    (m : MethodForDiffuse) (b : Bool) (nc w : Nat) (st : SixelOutput)
    (s s2 : HCState) (h y mod_y : Nat) (ev : List HCEvent)
    (hy : y < h) (hrow : hcRow d m w h y 0 s = .ok s2)
    (hclean : s2.dirty = false) (hlast : h ≤ y + 1) :
    hcRows d m b nc w st s h y mod_y ev = .ok (st, s2, h, ev, false) := by
  rw [hcRows, dif_pos hy, hrow]
  simp only []
  rw [dif_pos (⟨hlast, hclean⟩ : h ≤ y + 1 ∧ s2.dirty = false)]

/-- A clean six-row boundary (`mod_y = 5`) emits no flush: the loop simply
resets the mark bitmap - to the fixed size 32768, not `width * 6` - and
continues with the next band. -/
theorem hcRows_cleanBoundary
    (d : List Nat → Int → Int → Int → Int → MethodForDiffuse → List Nat)
    (m : MethodForDiffuse) (b : Bool) (nc w : Nat) (st : SixelOutput)
    (s s2 : HCState) (h y : Nat) (ev : List HCEvent)
    (hy : y < h) (hrow : hcRow d m w h y 0 s = .ok s2)
    (hclean : s2.dirty = false) (hnotlast : y + 1 < h) :
    hcRows d m b nc w st s h y 5 ev =
      hcRows d m b nc w st { s2 with marks := List.replicate 32768 false, mptr := 0 }
        h (y + 1) 0 ev := by
  rw [hcRows, dif_pos hy, hrow]
  simp only []
  rw [dif_neg (show ¬ (h ≤ y + 1 ∧ s2.dirty = false) from fun hc => by omega)]
  rw [dif_neg (show ¬ (s2.dirty = true ∧
      ((if h ≤ y + 1 then 5 else 5) = 5 ∨ h ≤ y + 1)) from
    fun hc => Bool.false_ne_true (hclean ▸ hc.1))]
  rw [if_pos (True.intro)]

/-- A dirty six-row boundary before the last row flushes the scanned rows
through `encode_body`, then rewinds the pixel cursor by the band's byte
extent `6 * width * 3` and restarts with the remaining rows plus six. -/
theorem hcRows_dirtyRewind
    (d : List Nat → Int → Int → Int → Int → MethodForDiffuse → List Nat)
    (m : MethodForDiffuse) (b : Bool) (nc w : Nat) (st st2 : SixelOutput)
    (s s2 : HCState) (h y : Nat) (ev : List HCEvent)
    (hy : y < h) (hrow : hcRow d m w h y 0 s = .ok s2)
    (hdirty : s2.dirty = true) (hnotlast : y + 1 < h)
    (hbody : encode_body
      (if s2.output_count = 0 then encode_header st (w : Int) (h : Int) else st)
      s2.paletted w (y + 1) s2.palette nc 255 b (some s2.palstate) = .ok st2) :
    hcRows d m b nc w st s h y 5 ev =
      .ok (st2, { s2 with output_count := s2.output_count + 1,
                          px_idx := s2.px_idx - 6 * w * 3 },
        h - (y + 1) + 6, (ev ++ [HCEvent.flush (y + 1) s2.dirty]) ++ [HCEvent.rewind],
        true) := by
  rw [hcRows, dif_pos hy, hrow]
  simp only []
  rw [dif_neg (show ¬ (h ≤ y + 1 ∧ s2.dirty = false) from fun hc => by omega)]
  rw [dif_pos (⟨hdirty, Or.inl (by rw [ite_self])⟩ : s2.dirty = true ∧
      ((if h ≤ y + 1 then 5 else 5) = 5 ∨ h ≤ y + 1))]
  rw [hbody]
  show (if h ≤ y + 1 then
      (.ok (st2, { s2 with output_count := s2.output_count + 1 }, y + 1,
        (ev ++ [HCEvent.flush (y + 1) s2.dirty]), false) :
        Except Failure (SixelOutput × HCState × Nat × List HCEvent × Bool))
    else
      .ok (st2, { s2 with output_count := s2.output_count + 1,
                          px_idx := s2.px_idx - 6 * w * 3 },
        h - (y + 1) + 6, (ev ++ [HCEvent.flush (y + 1) s2.dirty]) ++ [HCEvent.rewind],
        true)) =
    .ok (st2, { s2 with output_count := s2.output_count + 1,
                        px_idx := s2.px_idx - 6 * w * 3 },
      h - (y + 1) + 6, (ev ++ [HCEvent.flush (y + 1) s2.dirty]) ++ [HCEvent.rewind],
      true)
  rw [if_neg (by omega)]

/-- After the scanning loop stops, `encode_highcolor` emits the header if
nothing was flushed during scanning and performs exactly one body flush of
all accumulated rows, appending a single flush event. -/
theorem encode_highcolor_final
    (nf : List Nat → PixelFormat → Int → Int →
      Except SixelError (List Nat × PixelFormat))
    (df : List Nat → Int → Int → Int → Int → MethodForDiffuse → List Nat)
    (fuel : Nat) (st : SixelOutput) (px : List Nat) (w h : Int) (d : DitherConf)
    (stL st2 : SixelOutput) (sL : HCState) (h2 : Nat) (ev : List HCEvent)
    (hpf : d.pixelformat = PixelFormat.BGR888)
    (hl : hcLoop df d.method_for_diffuse d.bodyonly d.ncolors w.toNat fuel st
      { pixels := px, px_idx := 0,
        paletted := List.replicate (w.toNat * h.toNat) 0, dst := 0,
        rgbhit := fun _ => 0, rgb2pal := fun _ => 0,
        nextpal := 0, threshold := 1, dirty := false, mptr := 0,
        marks := List.replicate (w.toNat * 6) false,
        palstate := List.replicate SIXEL_PALETTE_MAX 0,
        palhitcount := List.replicate SIXEL_PALETTE_MAX 0,
        palette := d.palette, output_count := 0 } h.toNat [] =
      .ok (stL, sL, h2, ev))
    (hbody : encode_body
      (if sL.output_count = 0 then encode_header stL w (h2 : Int) else stL)
      sL.paletted w.toNat h2 sL.palette d.ncolors 255 d.bodyonly
      (some sL.palstate) = .ok st2) :
    encode_highcolor nf df fuel st px w h d =
      .ok (encode_footer st2, { d with palette := sL.palette },
        ev ++ [HCEvent.flush h2 sL.dirty]) := by
  rw [encode_highcolor, hpf]
  rw [if_neg (show ¬ (PixelFormat.BGR888 ≠ PixelFormat.BGR888) from by simp)]
  simp only []
  rw [hl]
  simp only []
  rw [hbody]

/-- The dither configuration of the C7 run: HighColor quality on BGR888
input with an empty color budget. -/
def hc0Dither : DitherConf := {
  palette := [0, 0, 0], ncolors := 0, keycolor := -1, bodyonly := false,
  pixelformat := PixelFormat.BGR888, method_for_diffuse := MethodForDiffuse.None,
  quality_mode := Quality.HighColor }

/-- The scan state of the high-color encoder at the start of a pass over a
zero-width twelve-row image. -/
def hc0x12State : HCState := {
  pixels := [], px_idx := 0,
  paletted := List.replicate (0 * 12) 0, dst := 0,
  rgbhit := fun _ => 0, rgb2pal := fun _ => 0,
  nextpal := 0, threshold := 1, dirty := false, mptr := 0,
  marks := List.replicate (0 * 6) false,
  palstate := List.replicate SIXEL_PALETTE_MAX 0,
  palhitcount := List.replicate SIXEL_PALETTE_MAX 0,
  palette := [0, 0, 0], output_count := 0 }

/-- C7 counterexample: a clean (never dirty) twelve-row image spans two
six-row bands, yet the high-color encoder performs exactly one body flush -
the final one, covering all twelve rows - not one per band, and no flush at
the six-row boundary. -/
theorem claim7_highcolor_counterexample :
    (∃ r d2, encode_highcolor idNormalize idDiffuse 1 SixelOutput.new [] 0 12
      hc0Dither = .ok (r, d2, [HCEvent.flush 12 false])) ∧ (12 + 5) / 6 = 2 := by
  refine ⟨?_, by norm_num⟩
  obtain ⟨s2, hrows, hd, hpal, hplt, hps, hoc⟩ := hcRows_widthZero idDiffuse
    MethodForDiffuse.None false 0 SixelOutput.new 12 (12 - 0) hc0x12State 0 0 []
    rfl (by omega) rfl
  have hloop : hcLoop idDiffuse MethodForDiffuse.None false 0 0 1 SixelOutput.new
      hc0x12State 12 [] = .ok (SixelOutput.new, s2, 12, []) := by
    rw [show (1 : Nat) = 0 + 1 from rfl]
    rw [hcLoop]
    have hEq : { hc0x12State with
        dst := 0, nextpal := 0, threshold := 1, dirty := false, mptr := 0,
        marks := List.replicate (0 * 6) false,
        palstate := List.replicate SIXEL_PALETTE_MAX 0 } = hc0x12State := rfl
    rw [hEq, hrows]
    rfl
  have hoc0 : s2.output_count = 0 := hoc
  obtain ⟨r, hb⟩ := encode_body_widthZero (encode_header SixelOutput.new 0 12)
    s2.paletted 12 255 s2.palstate
    (by rw [encode_header_policy]; decide) (by rw [encode_header_nodes]; rfl)
  have hb2 : encode_body
      (if s2.output_count = 0 then encode_header SixelOutput.new (0 : Int)
        ((12 : Nat) : Int) else SixelOutput.new)
      s2.paletted (0 : Int).toNat 12 s2.palette hc0Dither.ncolors 255
      hc0Dither.bodyonly (some s2.palstate) = .ok r := by
    rw [if_pos hoc0, hplt]
    exact hb
  refine ⟨encode_footer r, { hc0Dither with palette := s2.palette }, ?_⟩
  have h := encode_highcolor_final idNormalize idDiffuse 1 SixelOutput.new [] 0 12
    hc0Dither SixelOutput.new r s2 12 [] rfl hloop hb2
  rw [h, hd]
  rfl

/-- C7 (amended): the body flush of the high-color encoder is not
per-six-rows.  The scanning loop flushes only when the dirty flag is set at
a six-row boundary (or at the last row): a clean last row stops with no
flush event, a clean six-row boundary just resets the mark bitmap (to the
fixed size 32768) and continues, and a dirty boundary before the last row
flushes the rows scanned so far, rewinds the pixel cursor by the band's
byte extent `6 * width * 3`, and restarts.  After the loop, exactly one
body flush of all accumulated rows is performed, so a never-dirty image
gets a single flush for the whole image, not one per band. -/
theorem claim7_highcolor_amended :
    (∀ (d : List Nat → Int → Int → Int → Int → MethodForDiffuse → List Nat)
      (m : MethodForDiffuse) (b : Bool) (nc w : Nat) (st : SixelOutput)
      (s s2 : HCState) (h y mod_y : Nat) (ev : List HCEvent),
      y < h → hcRow d m w h y 0 s = .ok s2 → s2.dirty = false → h ≤ y + 1 →
      hcRows d m b nc w st s h y mod_y ev = .ok (st, s2, h, ev, false)) ∧
    (∀ (d : List Nat → Int → Int → Int → Int → MethodForDiffuse → List Nat)
      (m : MethodForDiffuse) (b : Bool) (nc w : Nat) (st : SixelOutput)
      (s s2 : HCState) (h y : Nat) (ev : List HCEvent),
      y < h → hcRow d m w h y 0 s = .ok s2 → s2.dirty = false → y + 1 < h →
      hcRows d m b nc w st s h y 5 ev =
        hcRows d m b nc w st
          { s2 with marks := List.replicate 32768 false, mptr := 0 }
          h (y + 1) 0 ev) ∧
    (∀ (d : List Nat → Int → Int → Int → Int → MethodForDiffuse → List Nat)
      (m : MethodForDiffuse) (b : Bool) (nc w : Nat) (st st2 : SixelOutput)
      (s s2 : HCState) (h y : Nat) (ev : List HCEvent),
      y < h → hcRow d m w h y 0 s = .ok s2 → s2.dirty = true → y + 1 < h →
      encode_body
        (if s2.output_count = 0 then encode_header st (w : Int) (h : Int) else st)
        s2.paletted w (y + 1) s2.palette nc 255 b (some s2.palstate) = .ok st2 →
      hcRows d m b nc w st s h y 5 ev =
        .ok (st2, { s2 with output_count := s2.output_count + 1,
                            px_idx := s2.px_idx - 6 * w * 3 },
          h - (y + 1) + 6,
          (ev ++ [HCEvent.flush (y + 1) s2.dirty]) ++ [HCEvent.rewind], true)) ∧
    (∀ (nf : List Nat → PixelFormat → Int → Int →
        Except SixelError (List Nat × PixelFormat))
      (df : List Nat → Int → Int → Int → Int → MethodForDiffuse → List Nat)
      (fuel : Nat) (st : SixelOutput) (px : List Nat) (w h : Int) (d : DitherConf)
      (stL st2 : SixelOutput) (sL : HCState) (h2 : Nat) (ev : List HCEvent),
      d.pixelformat = PixelFormat.BGR888 →
      hcLoop df d.method_for_diffuse d.bodyonly d.ncolors w.toNat fuel st
        { pixels := px, px_idx := 0,
          paletted := List.replicate (w.toNat * h.toNat) 0, dst := 0,
          rgbhit := fun _ => 0, rgb2pal := fun _ => 0,
          nextpal := 0, threshold := 1, dirty := false, mptr := 0,
          marks := List.replicate (w.toNat * 6) false,
          palstate := List.replicate SIXEL_PALETTE_MAX 0,
          palhitcount := List.replicate SIXEL_PALETTE_MAX 0,
          palette := d.palette, output_count := 0 } h.toNat [] =
        .ok (stL, sL, h2, ev) →
      encode_body
        (if sL.output_count = 0 then encode_header stL w (h2 : Int) else stL)
        sL.paletted w.toNat h2 sL.palette d.ncolors 255 d.bodyonly
        (some sL.palstate) = .ok st2 →
      encode_highcolor nf df fuel st px w h d =
        .ok (encode_footer st2, { d with palette := sL.palette },
          ev ++ [HCEvent.flush h2 sL.dirty])) :=
  ⟨fun d m b nc w st s s2 h y mod_y ev hy hrow hclean hlast =>
    hcRows_cleanStop d m b nc w st s s2 h y mod_y ev hy hrow hclean hlast,
   fun d m b nc w st s s2 h y ev hy hrow hclean hnotlast =>
    hcRows_cleanBoundary d m b nc w st s s2 h y ev hy hrow hclean hnotlast,
   fun d m b nc w st st2 s s2 h y ev hy hrow hdirty hnotlast hbody =>
    hcRows_dirtyRewind d m b nc w st st2 s s2 h y ev hy hrow hdirty hnotlast hbody,
   fun nf df fuel st px w h d stL st2 sL h2 ev hpf hl hbody =>
    encode_highcolor_final nf df fuel st px w h d stL st2 sL h2 ev hpf hl hbody⟩

/-- C7 witness: the flush-trigger laws applied to zero-width scans - a
clean one-row image stops with no flush, and a clean six-row boundary of a
two-row-remaining scan continues with the reset marks and no flush. -/
theorem claim7_highcolor_witness :
    hcRows idDiffuse MethodForDiffuse.None false 0 0 SixelOutput.new hc0x12State
      1 0 0 [] = .ok (SixelOutput.new, hc0x12State, 1, [], false) ∧
    hcRows idDiffuse MethodForDiffuse.None false 0 0 SixelOutput.new hc0x12State
      2 0 5 [] =
      hcRows idDiffuse MethodForDiffuse.None false 0 0 SixelOutput.new
        { hc0x12State with marks := List.replicate 32768 false, mptr := 0 }
        2 1 0 [] :=
  ⟨claim7_highcolor_amended.1 idDiffuse MethodForDiffuse.None false 0 0
    SixelOutput.new hc0x12State hc0x12State 1 0 0 [] (by decide)
    (by simp [hcRow]) rfl (by decide),
   claim7_highcolor_amended.2.1 idDiffuse MethodForDiffuse.None false 0 0
    SixelOutput.new hc0x12State hc0x12State 2 0 [] (by decide)
    (by simp [hcRow]) rfl (by decide)⟩

end IcySixel
